import Mathlib

/-!
# Note creation (`core/note/create.go`)

A shallow embedding of the note-creation engine: the render context, the
filename resolver `genPath` with its bounded retry loop, the composer `create`
and the entry point `Create`.

The collaborators (identifier generator, template renderers, path validator,
template loader, write helper) are stateful Go values.  They are embedded as
transitions over an arbitrary world state `σ`; every call made by the code is
recorded, in order, in a call log so that the number, order and arguments of
the calls can be stated.
-/

namespace Note

/-! ## Errors -/

/-- Go `error` values: either an error value created from a message
(`fmt.Errorf`, or whatever a collaborator returns), or an error wrapped with a
context by the `errors.Wrapperf` helper. -/
inductive Error where
  | errorf (msg : String)
  | wrapf (context : String) (cause : Error)
  deriving DecidableEq, Repr

namespace errors

/-- Modelled from the spec: `errors.Wrapperf` of `util/errors`, which is absent
from the sources.  The returned function wraps an error with the given
context (`"new note: …"`). -/
def Wrapperf (context : String) : Error → Error :=
  fun err => Error.wrapf context err

end errors

/-! ## Optional strings -/

namespace opt

/-- Modelled from the spec: `opt.String.OrDefault` of `util/opt`, which is
absent from the sources: the supplied value if non-empty, else the default. -/
def OrDefault (s : Option String) (dflt : String) : String :=
  match s with
  | some v => if v = "" then dflt else v
  | none => dflt

/-- Modelled from the spec: `opt.String.Unwrap` of `util/opt`, which is absent
from the sources: the supplied value, or the empty string when absent. -/
def Unwrap (s : Option String) : String :=
  match s with
  | some v => v
  | none => ""

end opt

/-! ## Paths (Go `path/filepath` on Unix, and `util/paths`) -/

namespace filepath

/-- The path elements between separators: `"/a//b"` has the elements
`""`, `"a"`, `""`, `"b"`. -/
def splitSep : List Char → List (List Char)
  | [] => [[]]
  | c :: cs =>
    if c = '/' then [] :: splitSep cs
    else
      match splitSep cs with
      | [] => [[c]]
      | e :: es => (c :: e) :: es

/-- One element of `Clean`'s scan. `out` holds the elements kept so far, the
last one first. Empty and `.` elements are dropped; `..` removes the element
before it, is dropped at the root, and is kept at the start of a relative
path. -/
def cleanStep (rooted : Bool) (out : List (List Char)) (e : List Char) :
    List (List Char) :=
  if e = [] then out
  else if e = ['.'] then out
  else if e = ['.', '.'] then
    match out with
    | [] => if rooted then [] else [e]
    | top :: rest => if top = ['.', '.'] then e :: top :: rest else rest
  else e :: out

/-- The characters of the elements joined by the separator. -/
def joinSep : List (List Char) → List Char
  | [] => []
  | [e] => e
  | e :: es => e ++ '/' :: joinSep es

/-- Go `filepath.Clean` on the characters of a path. -/
def cleanChars (path : List Char) : List Char :=
  let rooted := path.head? = some '/'
  let out := (splitSep path).foldl (cleanStep rooted) []
  let body := joinSep out.reverse
  if rooted then '/' :: body
  else if body = [] then ['.'] else body

/-- Go `filepath.Clean`: the shortest path name equivalent to `path` by purely
lexical processing. -/
def Clean (path : String) : String :=
  String.mk (cleanChars path.data)

/-- Go `filepath.Join`: joins the elements with the separator, ignoring leading
empty elements, and cleans the result. -/
def Join : List String → String
  | [] => ""
  | e :: es =>
    if e = "" then Join es
    else Clean (String.mk (joinSep ((e :: es).map String.data)))

/-- Go `filepath.Base` on the characters of a path: trailing separators are
stripped, then the last element is taken. -/
def baseChars (path : List Char) : List Char :=
  ((path.reverse.dropWhile (fun c => c = '/')).takeWhile (fun c => c ≠ '/')).reverse

/-- Go `filepath.Base`: the last element of the path. -/
def Base (path : String) : String :=
  if path = "" then "."
  else
    let e := baseChars path.data
    if e = [] then "/" else String.mk e

/-- The scan of `filepath.Ext` from the end of the path: `rev` is what remains
to scan (last character first), `acc` what has been scanned. -/
def extScan : List Char → List Char → List Char
  | [], _ => []
  | c :: rev, acc =>
    if c = '/' then []
    else if c = '.' then c :: acc
    else extScan rev (c :: acc)

/-- Go `filepath.Ext`: the suffix beginning at the final dot in the final
element of the path; empty if there is no dot. -/
def Ext (path : String) : String :=
  String.mk (extScan path.data.reverse [])

end filepath

namespace paths

/-- Modelled from the spec: `paths.FilenameStem` of `util/paths`, which is
absent from the sources: the base filename with its extension removed. -/
def FilenameStem (path : String) : String :=
  let filename := filepath.Base path
  let ext := filepath.Ext filename
  String.mk (filename.data.take (filename.data.length - ext.data.length))

end paths

/-! ## Data model -/

/-- Modelled from the spec: the directory configuration (`zk.Config`, declared
outside the sources), with the fields the code reads. `ι` is the type of the
identifier-generation options. -/
structure Config (ι : Type) where
  FilenameTemplate : String
  BodyTemplatePath : Option String
  Extension : String
  DefaultTitle : String
  IDOptions : ι
  Extra : List (String × String)

/-- Modelled from the spec: the directory descriptor (`zk.Dir`, declared
outside the sources). -/
structure Dir (ι : Type) where
  Name : String
  Path : String
  Config : Config ι

/-- The options to create a new note. -/
structure CreateOpts (ι : Type) where
  Dir : Dir ι
  Title : Option String
  Content : Option String

/-- The output value of `create`. -/
structure createdNote where
  path : String
  content : String
  deriving DecidableEq, Repr

/-- The placeholder values which will be expanded in the templates. -/
structure renderContext where
  ID : String
  Title : String
  Content : String
  Dir : String
  Filename : String
  FilenameStem : String
  Extra : List (String × String)
  deriving DecidableEq, Repr

/-! ## Collaborators and the call log -/

/-- A `templ.Renderer`: renders a context to a string, or fails. -/
abbrev Renderer (σ : Type) := renderContext → σ → Except Error String × σ

deriving instance DecidableEq for Except

/-- The dependencies of `create`. -/
structure createDeps (σ : Type) where
  filenameTemplate : Renderer σ
  bodyTemplate : Renderer σ
  genId : σ → String × σ
  validatePath : String → σ → (Bool × Option Error) × σ

/-- A `templ.Loader`. -/
structure Loader (σ : Type) where
  Load : String → σ → Except Error (Renderer σ) × σ
  LoadFile : String → σ → Except Error (Renderer σ) × σ

/-- One call to a collaborator, with its arguments and what it returned. -/
inductive Call where
  | load (source : String) (err : Option Error)
  | loadFile (path : String) (err : Option Error)
  | genId (id : String)
  | renderFilename (context : renderContext) (result : Except Error String)
  | validatePath (path : String) (valid : Bool) (err : Option Error)
  | renderBody (context : renderContext) (result : Except Error String)
  | writeString (path : String) (content : String) (err : Option Error)

/-- The state threaded through a run: the world the collaborators act on, and
the calls made so far, oldest first. -/
structure Sys (σ : Type) where
  world : σ
  log : List Call

/-- A run starts in a world with an empty call log. -/
def Sys.start {σ : Type} (w : σ) : Sys σ := ⟨w, []⟩

/-- Generator calls in a log: the identifiers returned, in order. -/
def genIds : List Call → List String
  | [] => []
  | Call.genId id :: l => id :: genIds l
  | _ :: l => genIds l

/-- Filename-template renders in a log: the contexts rendered, in order. -/
def filenameRenders : List Call → List renderContext
  | [] => []
  | Call.renderFilename c _ :: l => c :: filenameRenders l
  | _ :: l => filenameRenders l

/-- Validator calls in a log: the paths validated, in order. -/
def validations : List Call → List String
  | [] => []
  | Call.validatePath p _ _ :: l => p :: validations l
  | _ :: l => validations l

/-- Body-template renders in a log: context and result, in order. -/
def bodyRenders : List Call → List (renderContext × Except Error String)
  | [] => []
  | Call.renderBody c r :: l => (c, r) :: bodyRenders l
  | _ :: l => bodyRenders l

/-- Calls of the write helper in a log: path and content, in order. -/
def writes : List Call → List (String × String)
  | [] => []
  | Call.writeString p c _ :: l => (p, c) :: writes l
  | _ :: l => writes l

/-! ## The filename resolver -/

/-- What `genPath` returns: `(string, renderContext, error)`. -/
structure GenPathResult where
  path : String
  context : renderContext
  err : Option Error

/-- The loop of `genPath`, with `n` iterations left; `path` is the variable
declared before the loop. -/
def genPathLoop {σ ι : Type} (dir : Dir ι) (deps : createDeps σ) :
    Nat → String → renderContext → Sys σ → GenPathResult × Sys σ
  | 0, path, context, s =>
    (⟨"", context, some (Error.errorf (path ++ ": note already exists"))⟩, s)
  | n + 1, _, context, s =>
    let g := deps.genId s.world
    let context := { context with ID := g.1 }
    let s := Sys.mk g.2 (s.log ++ [Call.genId g.1])
    let r := deps.filenameTemplate context s.world
    let s := Sys.mk r.2 (s.log ++ [Call.renderFilename context r.1])
    match r.1 with
    | Except.error err => (⟨"", context, some err⟩, s)
    | Except.ok filename =>
      let filename := filename ++ "." ++ dir.Config.Extension
      let path := filepath.Join [dir.Path, filename]
      let v := deps.validatePath path s.world
      let s := Sys.mk v.2 (s.log ++ [Call.validatePath path v.1.1 v.1.2])
      match v.1.2 with
      | some err => (⟨"", context, some err⟩, s)
      | none =>
        if v.1.1 then
          let context := { context with Filename := filepath.Base path }
          let context := { context with FilenameStem := paths.FilenameStem path }
          (⟨path, context, none⟩, s)
        else genPathLoop dir deps n path context s

/-- The filename resolver `genPath`: at most 50 attempts. -/
def genPath {σ ι : Type} (context : renderContext) (dir : Dir ι) (deps : createDeps σ)
    (s : Sys σ) : GenPathResult × Sys σ :=
  genPathLoop dir deps 50 "" context s

/-! ## The composer -/

/-- The context built at the start of `create`. -/
def initialContext {ι : Type} (opts : CreateOpts ι) : renderContext :=
  { ID := ""
    Title := opt.OrDefault opts.Title opts.Dir.Config.DefaultTitle
    Content := opt.Unwrap opts.Content
    Dir := opts.Dir.Name
    Filename := ""
    FilenameStem := ""
    Extra := opts.Dir.Config.Extra }

/-- The composer `create`: returns `(*createdNote, error)`. -/
def create {σ ι : Type} (opts : CreateOpts ι) (deps : createDeps σ) (s : Sys σ) :
    (Option createdNote × Option Error) × Sys σ :=
  let context := initialContext opts
  let g := genPath context opts.Dir deps s
  match g.1.err with
  | some err => ((none, some err), g.2)
  | none =>
    let b := deps.bodyTemplate g.1.context g.2.world
    let s := Sys.mk b.2 (g.2.log ++ [Call.renderBody g.1.context b.1])
    match b.1 with
    | Except.error err => ((none, some err), s)
    | Except.ok content => ((some ⟨g.1.path, content⟩, none), s)

/-! ## The entry point -/

/-- The packages `Create` reaches outside the sources: `rand.NewIDGenerator`,
`paths.Exists` and `paths.WriteString`. -/
structure Env (σ ι : Type) where
  NewIDGenerator : ι → σ → String × σ
  Exists : String → σ → (Bool × Option Error) × σ
  WriteString : String → String → σ → Option Error × σ

/-- Modelled from the spec: `templ.NullRenderer`, declared outside the sources:
renders to the empty string unconditionally. -/
def NullRenderer {σ : Type} : Renderer σ :=
  fun _ w => (Except.ok "", w)

/-- The path validator `validatePath`: a path is valid when it does not exist. -/
def validatePath {σ ι : Type} (env : Env σ ι) (path : String) (w : σ) :
    (Bool × Option Error) × σ :=
  let r := env.Exists path w
  ((!r.1.1, r.1.2), r.2)

/-- The error of a load, if any. -/
def loadErr {α : Type} : Except Error α → Option Error
  | Except.error err => some err
  | Except.ok _ => none

/-- The entry point `Create`: returns `(string, error)`; `none` stands for a
nil dereference of the note returned by `create`. -/
def Create {σ ι : Type} (env : Env σ ι) (opts : CreateOpts ι) (templateLoader : Loader σ)
    (s : Sys σ) : Option (String × Option Error) × Sys σ :=
  let wrap := errors.Wrapperf "new note"
  let l := templateLoader.Load opts.Dir.Config.FilenameTemplate s.world
  let s := Sys.mk l.2 (s.log ++ [Call.load opts.Dir.Config.FilenameTemplate (loadErr l.1)])
  match l.1 with
  | Except.error err => (some ("", some err), s)
  | Except.ok filenameTemplate =>
    let templatePath := opt.Unwrap opts.Dir.Config.BodyTemplatePath
    let b : Except Error (Renderer σ) × Sys σ :=
      if templatePath = "" then (Except.ok NullRenderer, s)
      else
        let f := templateLoader.LoadFile templatePath s.world
        (f.1, Sys.mk f.2 (s.log ++ [Call.loadFile templatePath (loadErr f.1)]))
    match b.1 with
    | Except.error err => (some ("", some (wrap err)), b.2)
    | Except.ok bodyTemplate =>
      let c := create opts
        { filenameTemplate := filenameTemplate
          bodyTemplate := bodyTemplate
          genId := env.NewIDGenerator opts.Dir.Config.IDOptions
          validatePath := validatePath env } b.2
      match c.1.2 with
      | some err => (some ("", some (wrap err)), c.2)
      | none =>
        match c.1.1 with
        | none => (none, c.2)
        | some createdNote =>
          let e := env.WriteString createdNote.path createdNote.content c.2.world
          let s := Sys.mk e.2
            (c.2.log ++ [Call.writeString createdNote.path createdNote.content e.1])
          match e.1 with
          | some err => (some ("", some (wrap err)), s)
          | none => (some (createdNote.path, none), s)

/-! ## Describing a run of the resolver

The collaborators are arbitrary, so what they answer on the attempts of a run
is described by sequences: `ids i` is the identifier of attempt `i` (counted
from 0), `names i` the filename rendered on it, and `w i` the world in which
it starts. -/

/-- The candidate path built from a rendered filename. -/
def candidatePath {ι : Type} (dir : Dir ι) (name : String) : String :=
  filepath.Join [dir.Path, name ++ "." ++ dir.Config.Extension]

/-- On attempt `i` the generator returns `ids i`, the filename template renders
`names i`, and the validator answers `(valid, err)` for the candidate. -/
def Attempt {σ ι : Type} (dir : Dir ι) (deps : createDeps σ) (context : renderContext)
    (ids names : Nat → String) (w : Nat → σ) (i : Nat) (valid : Bool)
    (err : Option Error) : Prop :=
  ∃ w1 w2, deps.genId (w i) = (ids i, w1) ∧
    deps.filenameTemplate { context with ID := ids i } w1 = (Except.ok (names i), w2) ∧
    deps.validatePath (candidatePath dir (names i)) w2 = ((valid, err), w (i + 1))

/-- On attempt `i` the generator returns `ids i` and the filename template
fails with `err`. -/
def RenderFails {σ : Type} (deps : createDeps σ) (context : renderContext)
    (ids : Nat → String) (w : Nat → σ) (i : Nat) (err : Error) : Prop :=
  ∃ w1, deps.genId (w i) = (ids i, w1) ∧
    deps.filenameTemplate { context with ID := ids i } w1 = (Except.error err, w (i + 1))

/-- The calls of one attempt that reaches the validator. -/
def attemptCalls {ι : Type} (dir : Dir ι) (context : renderContext)
    (ids names : Nat → String) (i : Nat) (valid : Bool) (err : Option Error) : List Call :=
  [Call.genId (ids i),
   Call.renderFilename { context with ID := ids i } (Except.ok (names i)),
   Call.validatePath (candidatePath dir (names i)) valid err]

/-- The calls of `k` colliding attempts, from attempt `j` on. -/
def collisionCalls {ι : Type} (dir : Dir ι) (context : renderContext)
    (ids names : Nat → String) : Nat → Nat → List Call
  | _, 0 => []
  | j, k + 1 =>
    attemptCalls dir context ids names j false none ++
      collisionCalls dir context ids names (j + 1) k

/-! ## Failures recorded in the call log -/

/-- A call that fails before the write step: a template load, a filename
render, a validation or a body render that returned an error. -/
def Call.failsBeforeWrite : Call → Bool
  | Call.load _ (some _) => true
  | Call.loadFile _ (some _) => true
  | Call.renderFilename _ (Except.error _) => true
  | Call.validatePath _ _ (some _) => true
  | Call.renderBody _ (Except.error _) => true
  | _ => false

/-- The number of collisions in a log: validations that reported the path as
occupied, without error. -/
def collisions : List Call → Nat
  | [] => 0
  | Call.validatePath _ false none :: l => collisions l + 1
  | _ :: l => collisions l

/-- The dependencies `Create` hands to `create`. -/
def depsOf {σ ι : Type} (env : Env σ ι) (opts : CreateOpts ι)
    (filenameTemplate bodyTemplate : Renderer σ) : createDeps σ :=
  { filenameTemplate := filenameTemplate
    bodyTemplate := bodyTemplate
    genId := env.NewIDGenerator opts.Dir.Config.IDOptions
    validatePath := validatePath env }

/-- The collaborators of the resolver and the body template leave the
observation `fs` of the world unchanged. -/
def Preserves {σ F : Type} (fs : σ → F) (deps : createDeps σ) : Prop :=
  (∀ w, fs (deps.genId w).2 = fs w) ∧
  (∀ c w, fs (deps.filenameTemplate c w).2 = fs w) ∧
  (∀ c w, fs (deps.bodyTemplate c w).2 = fs w) ∧
  (∀ p w, fs (deps.validatePath p w).2 = fs w)

/-- The body template `bodyTemplate` and the state `s2` with which `Create`
goes on from the state `s1` reached after loading the filename template: the
null renderer when no body template path is configured, the loaded file
otherwise. -/
def BodyLoaded {σ ι : Type} (opts : CreateOpts ι) (templateLoader : Loader σ)
    (s1 : Sys σ) (bodyTemplate : Renderer σ) (s2 : Sys σ) : Prop :=
  (opt.Unwrap opts.Dir.Config.BodyTemplatePath = "" ∧
    bodyTemplate = NullRenderer ∧ s2 = s1) ∨
  (opt.Unwrap opts.Dir.Config.BodyTemplatePath ≠ "" ∧
    ∃ w2, templateLoader.LoadFile (opt.Unwrap opts.Dir.Config.BodyTemplatePath) s1.world =
        (Except.ok bodyTemplate, w2) ∧
      s2 = ⟨w2, s1.log ++
        [Call.loadFile (opt.Unwrap opts.Dir.Config.BodyTemplatePath) none]⟩)

/-- Two contexts agree on the fields that `genPath` leaves alone. -/
def sameInputs (c c' : renderContext) : Prop :=
  c'.Title = c.Title ∧ c'.Content = c.Content ∧ c'.Dir = c.Dir ∧ c'.Extra = c.Extra

/-- The collaborators other than the write helper (the loader, the renderers
it returns, the identifier generator and the existence check) leave the
observation `fs` of the world unchanged. -/
def LeavesUnchanged {σ ι F : Type} (fs : σ → F) (env : Env σ ι)
    (templateLoader : Loader σ) : Prop :=
  (∀ src v, fs (templateLoader.Load src v).2 = fs v) ∧
  (∀ p v, fs (templateLoader.LoadFile p v).2 = fs v) ∧
  (∀ src v r v', templateLoader.Load src v = (Except.ok r, v') →
    ∀ c u, fs (r c u).2 = fs u) ∧
  (∀ p v r v', templateLoader.LoadFile p v = (Except.ok r, v') →
    ∀ c u, fs (r c u).2 = fs u) ∧
  (∀ o v, fs (env.NewIDGenerator o v).2 = fs v) ∧
  (∀ p v, fs (env.Exists p v).2 = fs v)

/-! ## More readings of the call log -/

/-- Successful filename renders in a log: the strings rendered, in order. -/
def renderedNames : List Call → List String
  | [] => []
  | Call.renderFilename _ (Except.ok name) :: l => name :: renderedNames l
  | _ :: l => renderedNames l

/-- Calls of the loader's `LoadFile` in a log: the paths loaded, in order. -/
def fileLoads : List Call → List String
  | [] => []
  | Call.loadFile path _ :: l => path :: fileLoads l
  | _ :: l => fileLoads l

/-- Whether a call is a filename render that failed. -/
def Call.isRenderError : Call → Bool
  | Call.renderFilename _ (Except.error _) => true
  | _ => false

/-- Whether the last call of a log is a filename render that failed. -/
def endsWithRenderError (log : List Call) : Bool :=
  match log.getLast? with
  | some c => c.isRenderError
  | none => false

/-! ## The last element of a rendered filename -/

/-- The characters after the last separator of a text, the whole text if it
holds no separator. -/
def lastElement (l : List Char) : List Char :=
  (l.reverse.takeWhile (fun c => c ≠ '/')).reverse

/-- A path element that `filepath.Clean` keeps as it is: not empty, not `.`,
not `..`, and without separator. -/
def IsName (e : List Char) : Prop :=
  e ≠ [] ∧ e ≠ ['.'] ∧ e ≠ ['.', '.'] ∧ '/' ∉ e

/-- The elements `filepath.Clean` keeps of a path, the last one first. -/
def cleanOut (rooted : Bool) (path : List Char) : List (List Char) :=
  (filepath.splitSep path).foldl (filepath.cleanStep rooted) []

/-! ## A scripted environment

The scenario of the specification: directory `/notes`, extension `md`, a
generator yielding `abcd`, `efgh`, …, a filename template rendering
`20230101-` followed by the identifier. The world is the number of identifiers
generated so far together with the paths that exist. -/

namespace Scenario

/-- The directory `/notes` with extension `md`. -/
def dir : Dir Unit :=
  { Name := "notes"
    Path := "/notes"
    Config :=
      { FilenameTemplate := "20230101-{{id}}"
        BodyTemplatePath := none
        Extension := "md"
        DefaultTitle := "Untitled"
        IDOptions := ()
        Extra := [] } }

/-- The world of the scenario. -/
structure World where
  generated : Nat
  files : List String
  deriving DecidableEq

/-- The identifiers the generator yields, in order. -/
def ids (i : Nat) : String :=
  match i with
  | 0 => "abcd"
  | 1 => "efgh"
  | _ => "ijkl"

/-- The filenames rendered from these identifiers. -/
def names (i : Nat) : String :=
  "20230101-" ++ ids i

/-- The generator. -/
def genId (w : World) : String × World :=
  (ids w.generated, { w with generated := w.generated + 1 })

/-- The filename template. -/
def filenameTemplate : Renderer World :=
  fun c w => (Except.ok ("20230101-" ++ c.ID), w)

/-- A filename template that cannot be rendered. -/
def brokenTemplate : Renderer World :=
  fun _ w => (Except.error (Error.errorf "undefined field"), w)

/-- A body template rendering title and filename stem. -/
def bodyTemplate : Renderer World :=
  fun c w => (Except.ok ("# " ++ c.Title ++ " (" ++ c.FilenameStem ++ ")"), w)

/-- The validator: a path is free when no file exists at it. -/
def validatePath (path : String) (w : World) : (Bool × Option Error) × World :=
  ((!w.files.contains path, none), w)

/-- A validator for which every path is occupied. -/
def allOccupied (_ : String) (w : World) : (Bool × Option Error) × World :=
  ((false, none), w)

/-- A validator whose existence check fails. -/
def deniedValidator (_ : String) (w : World) : (Bool × Option Error) × World :=
  ((true, some (Error.errorf "permission denied")), w)

/-- The dependencies of the scenario. -/
def deps : createDeps World :=
  { filenameTemplate := filenameTemplate
    bodyTemplate := bodyTemplate
    genId := genId
    validatePath := validatePath }

/-- The packages reached by `Create`: existence is membership in the files of
the world, writing adds the path to them. -/
def env : Env World Unit :=
  { NewIDGenerator := fun _ => genId
    Exists := fun path w => ((w.files.contains path, none), w)
    WriteString := fun path _ w => (none, { w with files := path :: w.files }) }

/-- A template loader giving the templates of the scenario. -/
def loader : Loader World :=
  { Load := fun _ w => (Except.ok filenameTemplate, w)
    LoadFile := fun _ w => (Except.ok bodyTemplate, w) }

/-- A load that fails. -/
def failingLoad (_ : String) (w : World) : Except Error (Renderer World) × World :=
  (Except.error (Error.errorf "parse error"), w)

/-- A directory like `dir` with a body template configured. -/
def dirWithBody : Dir Unit :=
  { dir with Config := { dir.Config with BodyTemplatePath := some "default.md" } }

/-- The options of a note titled `My Note` in the directory with a body
template. -/
def opts : CreateOpts Unit :=
  { Dir := dirWithBody, Title := some "My Note", Content := none }

/-- A template loader whose filename template cannot be rendered. -/
def brokenLoader : Loader World :=
  { Load := fun _ w => (Except.ok brokenTemplate, w)
    LoadFile := fun _ w => (Except.ok bodyTemplate, w) }

/-- A filename template rendering the empty string. -/
def emptyTemplate : Renderer World :=
  fun _ w => (Except.ok "", w)

/-- A directory like `dir` with the extension `tar.gz`. -/
def dirTarGz : Dir Unit :=
  { dir with Config := { dir.Config with Extension := "tar.gz" } }

/-- A directory like `dir` whose base path is the root `/`. -/
def rootDir : Dir Unit :=
  { dir with Path := "/" }

/-- A directory like `dir` whose base path is the current directory `.`. -/
def currentDir : Dir Unit :=
  { dir with Path := "." }

/-- The context of a note titled `My Note`. -/
def context : renderContext :=
  { ID := "", Title := "My Note", Content := "", Dir := "notes", Filename := "",
    FilenameStem := "", Extra := [] }

/-- The world before attempt `i` when `files` exist. -/
def world (files : List String) (i : Nat) : World :=
  { generated := i, files := files }

end Scenario

/-! ## Lemmas on the call log -/

@[simp] theorem genIds_append (l₁ l₂ : List Call) :
    genIds (l₁ ++ l₂) = genIds l₁ ++ genIds l₂ := by
  induction l₁ with
  | nil => rfl
  | cons c l ih => cases c <;> simp [genIds, ih]

@[simp] theorem filenameRenders_append (l₁ l₂ : List Call) :
    filenameRenders (l₁ ++ l₂) = filenameRenders l₁ ++ filenameRenders l₂ := by
  induction l₁ with
  | nil => rfl
  | cons c l ih => cases c <;> simp [filenameRenders, ih]

@[simp] theorem validations_append (l₁ l₂ : List Call) :
    validations (l₁ ++ l₂) = validations l₁ ++ validations l₂ := by
  induction l₁ with
  | nil => rfl
  | cons c l ih => cases c <;> simp [validations, ih]

@[simp] theorem bodyRenders_append (l₁ l₂ : List Call) :
    bodyRenders (l₁ ++ l₂) = bodyRenders l₁ ++ bodyRenders l₂ := by
  induction l₁ with
  | nil => rfl
  | cons c l ih => cases c <;> simp [bodyRenders, ih]

@[simp] theorem writes_append (l₁ l₂ : List Call) :
    writes (l₁ ++ l₂) = writes l₁ ++ writes l₂ := by
  induction l₁ with
  | nil => rfl
  | cons c l ih => cases c <;> simp [writes, ih]

theorem genIds_collisionCalls {ι : Type} (dir : Dir ι) (context : renderContext)
    (ids names : Nat → String) (k : Nat) :
    ∀ j, genIds (collisionCalls dir context ids names j k) = (List.range' j k).map ids := by
  induction k with
  | zero => intro j; rfl
  | succ k ih =>
    intro j
    simp [collisionCalls, attemptCalls, genIds, ih, List.range'_succ]

theorem validations_collisionCalls {ι : Type} (dir : Dir ι) (context : renderContext)
    (ids names : Nat → String) (k : Nat) :
    ∀ j, validations (collisionCalls dir context ids names j k) =
      (List.range' j k).map (fun i => candidatePath dir (names i)) := by
  induction k with
  | zero => intro j; rfl
  | succ k ih =>
    intro j
    simp [collisionCalls, attemptCalls, validations, ih, List.range'_succ]

theorem filenameRenders_collisionCalls {ι : Type} (dir : Dir ι) (context : renderContext)
    (ids names : Nat → String) (k : Nat) :
    ∀ j, filenameRenders (collisionCalls dir context ids names j k) =
      (List.range' j k).map (fun i => { context with ID := ids i }) := by
  induction k with
  | zero => intro j; rfl
  | succ k ih =>
    intro j
    simp [collisionCalls, attemptCalls, filenameRenders, ih, List.range'_succ]

/-! ## The retry loop along a run -/

/-- An attempt whose candidate is reported occupied is followed by the rest of
the loop, started from the candidate and the identifier of that attempt. -/
theorem genPathLoop_collision {σ ι : Type} (dir : Dir ι) (deps : createDeps σ)
    (context : renderContext) (ids names : Nat → String) (w : Nat → σ) (j n : Nat)
    (path id : String) (log : List Call)
    (h : Attempt dir deps context ids names w j false none) :
    genPathLoop dir deps (n + 1) path { context with ID := id } ⟨w j, log⟩ =
      genPathLoop dir deps n (candidatePath dir (names j)) { context with ID := ids j }
        ⟨w (j + 1), log ++ attemptCalls dir context ids names j false none⟩ := by
  obtain ⟨w1, w2, hg, hr, hv⟩ := h
  simp only [candidatePath] at hv
  simp [genPathLoop, hg, hr, hv, attemptCalls, candidatePath]

/-- After `k` colliding attempts the loop goes on with `k` fewer iterations
left, in the world reached, the calls of the collisions added to the log; the
path variable and the identifier in the context are those of the last
collision. -/
theorem genPathLoop_collisions {σ ι : Type} (dir : Dir ι) (deps : createDeps σ)
    (context : renderContext) (ids names : Nat → String) (w : Nat → σ) :
    ∀ (k j n : Nat) (path id : String) (log : List Call),
      (∀ i, i < k → Attempt dir deps context ids names w (j + i) false none) →
      genPathLoop dir deps (k + n) path { context with ID := id } ⟨w j, log⟩ =
        genPathLoop dir deps n
          (if k = 0 then path else candidatePath dir (names (j + k - 1)))
          { context with ID := if k = 0 then id else ids (j + k - 1) }
          ⟨w (j + k), log ++ collisionCalls dir context ids names j k⟩ := by
  intro k
  induction k with
  | zero =>
    intro j n path id log _
    simp [collisionCalls]
  | succ k ih =>
    intro j n path id log h
    have h0 := h 0 (Nat.succ_pos k)
    rw [Nat.add_zero] at h0
    have hrun := ih (j + 1) n (candidatePath dir (names j)) (ids j)
      (log ++ attemptCalls dir context ids names j false none)
      (fun i hi => by
        have := h (i + 1) (Nat.succ_lt_succ hi)
        rwa [show j + (i + 1) = j + 1 + i by omega] at this)
    rw [show k + 1 + n = (k + n) + 1 by omega,
      genPathLoop_collision dir deps context ids names w j (k + n) path id log h0, hrun,
      show j + 1 + k = j + (k + 1) by omega]
    by_cases hk : k = 0
    · subst hk
      simp [collisionCalls]
    · have e : j + 1 + k - 1 = j + (k + 1) - 1 := by omega
      simp [collisionCalls, hk, e]

/-- The loop on an attempt whose candidate is reported free. -/
theorem genPathLoop_free {σ ι : Type} (dir : Dir ι) (deps : createDeps σ)
    (context : renderContext) (ids names : Nat → String) (w : Nat → σ) (j n : Nat)
    (path id : String) (log : List Call)
    (h : Attempt dir deps context ids names w j true none) :
    genPathLoop dir deps (n + 1) path { context with ID := id } ⟨w j, log⟩ =
      (⟨candidatePath dir (names j),
        { context with
          ID := ids j
          Filename := filepath.Base (candidatePath dir (names j))
          FilenameStem := paths.FilenameStem (candidatePath dir (names j)) },
        none⟩,
       ⟨w (j + 1), log ++ attemptCalls dir context ids names j true none⟩) := by
  obtain ⟨w1, w2, hg, hr, hv⟩ := h
  simp only [candidatePath] at hv
  simp [genPathLoop, hg, hr, hv, attemptCalls, candidatePath]

/-- The loop on an attempt whose validation fails. -/
theorem genPathLoop_validateFails {σ ι : Type} (dir : Dir ι) (deps : createDeps σ)
    (context : renderContext) (ids names : Nat → String) (w : Nat → σ) (j n : Nat)
    (path id : String) (log : List Call) (valid : Bool) (err : Error)
    (h : Attempt dir deps context ids names w j valid (some err)) :
    genPathLoop dir deps (n + 1) path { context with ID := id } ⟨w j, log⟩ =
      (⟨"", { context with ID := ids j }, some err⟩,
       ⟨w (j + 1), log ++ attemptCalls dir context ids names j valid (some err)⟩) := by
  obtain ⟨w1, w2, hg, hr, hv⟩ := h
  simp only [candidatePath] at hv
  simp [genPathLoop, hg, hr, hv, attemptCalls, candidatePath]

/-- The loop on an attempt whose filename render fails. -/
theorem genPathLoop_renderFails {σ ι : Type} (dir : Dir ι) (deps : createDeps σ)
    (context : renderContext) (ids : Nat → String) (w : Nat → σ) (j n : Nat)
    (path id : String) (log : List Call) (err : Error)
    (h : RenderFails deps context ids w j err) :
    genPathLoop dir deps (n + 1) path { context with ID := id } ⟨w j, log⟩ =
      (⟨"", { context with ID := ids j }, some err⟩,
       ⟨w (j + 1), log ++ [Call.genId (ids j),
          Call.renderFilename { context with ID := ids j } (Except.error err)]⟩) := by
  obtain ⟨w1, hg, hr⟩ := h
  simp [genPathLoop, hg, hr]

/-! ## C1: uniqueness under collision -/

/-- C1. If the validator reports the first `k < 50` candidate paths as occupied
and the next one as free (rendering and validation not failing on these
attempts), `genPath` succeeds, has called the identifier generator exactly
`k + 1` times, namely for the identifiers `ids 0, …, ids k`, and returns the
`(k+1)`-th candidate path, the one built from the `(k+1)`-th identifier. -/
theorem genPath_returns_first_free {σ ι : Type} (dir : Dir ι) (deps : createDeps σ)
    (context : renderContext) (ids names : Nat → String) (w : Nat → σ) (k : Nat)
    (hk : k < 50)
    (hocc : ∀ i, i < k → Attempt dir deps context ids names w i false none)
    (hfree : Attempt dir deps context ids names w k true none) :
    (genPath context dir deps (Sys.start (w 0))).1.err = none ∧
    (genPath context dir deps (Sys.start (w 0))).1.path = candidatePath dir (names k) ∧
    (genPath context dir deps (Sys.start (w 0))).1.context.ID = ids k ∧
    (genIds (genPath context dir deps (Sys.start (w 0))).2.log).length = k + 1 ∧
    genIds (genPath context dir deps (Sys.start (w 0))).2.log = (List.range (k + 1)).map ids ∧
    (filenameRenders (genPath context dir deps (Sys.start (w 0))).2.log).getLast? =
      some { context with ID := ids k } := by
  have hrun : genPath context dir deps (Sys.start (w 0)) =
      (⟨candidatePath dir (names k),
        { context with
          ID := ids k
          Filename := filepath.Base (candidatePath dir (names k))
          FilenameStem := paths.FilenameStem (candidatePath dir (names k)) },
        none⟩,
       ⟨w (k + 1), collisionCalls dir context ids names 0 k ++
          attemptCalls dir context ids names k true none⟩) := by
    have h1 := genPathLoop_collisions dir deps context ids names w k 0 (50 - k) ""
      context.ID [] (fun i hi => by simpa using hocc i hi)
    have h2 := genPathLoop_free dir deps context ids names w k (50 - k - 1)
      (if k = 0 then "" else candidatePath dir (names (0 + k - 1)))
      (if k = 0 then context.ID else ids (0 + k - 1))
      ([] ++ collisionCalls dir context ids names 0 k) hfree
    rw [show k + (50 - k) = 50 by omega] at h1
    rw [show 50 - k - 1 + 1 = 50 - k by omega] at h2
    simp only [Nat.zero_add] at h1 h2
    simp only [genPath, Sys.start]
    rw [h1, h2]
    simp
  rw [hrun]
  refine ⟨rfl, rfl, rfl, ?_, ?_, ?_⟩
  · simp [genIds_collisionCalls, attemptCalls, genIds]
  · simp [genIds_collisionCalls, attemptCalls, genIds, List.range_succ, List.range_eq_range']
  · simp [attemptCalls, filenameRenders]

/-- C1 on the scenario of the specification: `/notes/20230101-abcd.md` exists,
the second identifier gives a free path. -/
theorem genPath_returns_first_free_witness :
    (genPath Scenario.context Scenario.dir Scenario.deps
      (Sys.start (Scenario.world ["/notes/20230101-abcd.md"] 0))).1.path =
        "/notes/20230101-efgh.md" ∧
    (genIds (genPath Scenario.context Scenario.dir Scenario.deps
      (Sys.start (Scenario.world ["/notes/20230101-abcd.md"] 0))).2.log).length = 2 :=
  have h := genPath_returns_first_free Scenario.dir Scenario.deps Scenario.context
    Scenario.ids Scenario.names (Scenario.world ["/notes/20230101-abcd.md"]) 1 (by decide)
    (fun i hi => by
      obtain rfl : i = 0 := by omega
      exact ⟨_, _, rfl, rfl, by decide⟩)
    ⟨_, _, rfl, rfl, by decide⟩
  ⟨h.2.1.trans (by decide), h.2.2.2.1⟩

/-! ## C2: exhaustion bound -/

/-- C2. If the validator reports every candidate as occupied (rendering and
validation not failing), `genPath` fails after exactly 50 attempts: exactly 50
generator calls, 50 renders and 50 validator calls, an empty path, and the
"note already exists" error carrying the 50th candidate path, which is the
last path validated. -/
theorem genPath_exhausted {σ ι : Type} (dir : Dir ι) (deps : createDeps σ)
    (context : renderContext) (ids names : Nat → String) (w : Nat → σ)
    (hocc : ∀ i, i < 50 → Attempt dir deps context ids names w i false none) :
    (genPath context dir deps (Sys.start (w 0))).1.path = "" ∧
    (genPath context dir deps (Sys.start (w 0))).1.err =
      some (Error.errorf (candidatePath dir (names 49) ++ ": note already exists")) ∧
    (genIds (genPath context dir deps (Sys.start (w 0))).2.log).length = 50 ∧
    (filenameRenders (genPath context dir deps (Sys.start (w 0))).2.log).length = 50 ∧
    (validations (genPath context dir deps (Sys.start (w 0))).2.log).length = 50 ∧
    (validations (genPath context dir deps (Sys.start (w 0))).2.log).getLast? =
      some (candidatePath dir (names 49)) := by
  have hrun : genPath context dir deps (Sys.start (w 0)) =
      (⟨"", { context with ID := ids 49 },
        some (Error.errorf (candidatePath dir (names 49) ++ ": note already exists"))⟩,
       ⟨w 50, collisionCalls dir context ids names 0 50⟩) := by
    have h1 := genPathLoop_collisions dir deps context ids names w 50 0 0 ""
      context.ID [] (fun i hi => by simpa using hocc i hi)
    simp only [genPath, Sys.start]
    rw [h1]
    simp [genPathLoop]
  rw [hrun]
  refine ⟨rfl, rfl, ?_, ?_, ?_, ?_⟩
  · simp [genIds_collisionCalls]
  · simp [filenameRenders_collisionCalls]
  · simp [validations_collisionCalls]
  · simp [validations_collisionCalls, List.range'_eq_map_range, List.range_succ]

/-- C2 on the scenario with a validator for which every path is occupied. -/
theorem genPath_exhausted_witness :
    (genPath Scenario.context Scenario.dir
      { Scenario.deps with validatePath := Scenario.allOccupied }
      (Sys.start (Scenario.world [] 0))).1.err =
        some (Error.errorf "/notes/20230101-ijkl.md: note already exists") ∧
    (genIds (genPath Scenario.context Scenario.dir
      { Scenario.deps with validatePath := Scenario.allOccupied }
      (Sys.start (Scenario.world [] 0))).2.log).length = 50 :=
  have h := genPath_exhausted Scenario.dir
    { Scenario.deps with validatePath := Scenario.allOccupied } Scenario.context
    Scenario.ids Scenario.names (Scenario.world []) (fun _ _ => ⟨_, _, rfl, rfl, rfl⟩)
  ⟨h.2.1.trans (by decide), h.2.2.1⟩

/-! ## C7: a filename render failure aborts -/

/-- C7. If the candidates of the first `m` attempts (`m < 50`) are reported
occupied and the filename template fails with `err` on attempt `m + 1`,
`genPath` returns that same error with an empty path; the generator has been
called exactly `m + 1` times, the validator only for the `m` earlier
candidates, and the failed render is the last call made. -/
theorem genPath_render_failure_aborts {σ ι : Type} (dir : Dir ι) (deps : createDeps σ)
    (context : renderContext) (ids names : Nat → String) (w : Nat → σ) (m : Nat)
    (err : Error) (hm : m < 50)
    (hocc : ∀ i, i < m → Attempt dir deps context ids names w i false none)
    (hfail : RenderFails deps context ids w m err) :
    (genPath context dir deps (Sys.start (w 0))).1.path = "" ∧
    (genPath context dir deps (Sys.start (w 0))).1.err = some err ∧
    (genIds (genPath context dir deps (Sys.start (w 0))).2.log).length = m + 1 ∧
    (filenameRenders (genPath context dir deps (Sys.start (w 0))).2.log).length = m + 1 ∧
    validations (genPath context dir deps (Sys.start (w 0))).2.log =
      (List.range m).map (fun i => candidatePath dir (names i)) ∧
    (genPath context dir deps (Sys.start (w 0))).2.log.getLast? =
      some (Call.renderFilename { context with ID := ids m } (Except.error err)) := by
  have hrun : genPath context dir deps (Sys.start (w 0)) =
      (⟨"", { context with ID := ids m }, some err⟩,
       ⟨w (m + 1), collisionCalls dir context ids names 0 m ++
          [Call.genId (ids m),
           Call.renderFilename { context with ID := ids m } (Except.error err)]⟩) := by
    have h1 := genPathLoop_collisions dir deps context ids names w m 0 (50 - m) ""
      context.ID [] (fun i hi => by simpa using hocc i hi)
    have h2 := genPathLoop_renderFails dir deps context ids w m (50 - m - 1)
      (if m = 0 then "" else candidatePath dir (names (0 + m - 1)))
      (if m = 0 then context.ID else ids (0 + m - 1))
      ([] ++ collisionCalls dir context ids names 0 m) err hfail
    rw [show m + (50 - m) = 50 by omega] at h1
    rw [show 50 - m - 1 + 1 = 50 - m by omega] at h2
    simp only [Nat.zero_add] at h1 h2
    simp only [genPath, Sys.start]
    rw [h1, h2]
    simp
  rw [hrun]
  refine ⟨rfl, rfl, ?_, ?_, ?_, ?_⟩
  · simp [genIds_collisionCalls, genIds]
  · simp [filenameRenders_collisionCalls, filenameRenders]
  · simp [validations_collisionCalls, validations, List.range_eq_range']
  · simp

/-- C7 on the scenario: the first candidate exists and the template cannot be
rendered on the second attempt. -/
theorem genPath_render_failure_aborts_witness :
    (genPath Scenario.context Scenario.dir
      { Scenario.deps with
        filenameTemplate := fun c w =>
          if w.generated = 2 then Scenario.brokenTemplate c w
          else Scenario.filenameTemplate c w }
      (Sys.start (Scenario.world ["/notes/20230101-abcd.md"] 0))).1.err =
        some (Error.errorf "undefined field") ∧
    (genIds (genPath Scenario.context Scenario.dir
      { Scenario.deps with
        filenameTemplate := fun c w =>
          if w.generated = 2 then Scenario.brokenTemplate c w
          else Scenario.filenameTemplate c w }
      (Sys.start (Scenario.world ["/notes/20230101-abcd.md"] 0))).2.log).length = 2 ∧
    validations (genPath Scenario.context Scenario.dir
      { Scenario.deps with
        filenameTemplate := fun c w =>
          if w.generated = 2 then Scenario.brokenTemplate c w
          else Scenario.filenameTemplate c w }
      (Sys.start (Scenario.world ["/notes/20230101-abcd.md"] 0))).2.log =
        ["/notes/20230101-abcd.md"] :=
  have h := genPath_render_failure_aborts Scenario.dir
    { Scenario.deps with
      filenameTemplate := fun c w =>
        if w.generated = 2 then Scenario.brokenTemplate c w
        else Scenario.filenameTemplate c w }
    Scenario.context Scenario.ids Scenario.names
    (Scenario.world ["/notes/20230101-abcd.md"]) 1 (Error.errorf "undefined field")
    (by decide)
    (fun i hi => by
      obtain rfl : i = 0 := by omega
      exact ⟨_, _, rfl, rfl, by decide⟩)
    ⟨_, rfl, rfl⟩
  ⟨h.2.1, h.2.2.1, h.2.2.2.2.1.trans (by decide)⟩

/-! ## C8: a validation failure aborts -/

/-- C8. If the candidates of the first `m` attempts (`m < 50`) are reported
occupied and the validator returns the error `err` on attempt `m + 1`, whatever
boolean `valid` it returns alongside, `genPath` returns that same error with an
empty path; generator, renderer and validator have each been called exactly
`m + 1` times and the failed validation is the last call made. -/
theorem genPath_validation_failure_aborts {σ ι : Type} (dir : Dir ι)
    (deps : createDeps σ) (context : renderContext) (ids names : Nat → String)
    (w : Nat → σ) (m : Nat) (valid : Bool) (err : Error) (hm : m < 50)
    (hocc : ∀ i, i < m → Attempt dir deps context ids names w i false none)
    (hfail : Attempt dir deps context ids names w m valid (some err)) :
    (genPath context dir deps (Sys.start (w 0))).1.path = "" ∧
    (genPath context dir deps (Sys.start (w 0))).1.err = some err ∧
    (genIds (genPath context dir deps (Sys.start (w 0))).2.log).length = m + 1 ∧
    (filenameRenders (genPath context dir deps (Sys.start (w 0))).2.log).length = m + 1 ∧
    (validations (genPath context dir deps (Sys.start (w 0))).2.log).length = m + 1 ∧
    (genPath context dir deps (Sys.start (w 0))).2.log.getLast? =
      some (Call.validatePath (candidatePath dir (names m)) valid (some err)) := by
  have hrun : genPath context dir deps (Sys.start (w 0)) =
      (⟨"", { context with ID := ids m }, some err⟩,
       ⟨w (m + 1), collisionCalls dir context ids names 0 m ++
          attemptCalls dir context ids names m valid (some err)⟩) := by
    have h1 := genPathLoop_collisions dir deps context ids names w m 0 (50 - m) ""
      context.ID [] (fun i hi => by simpa using hocc i hi)
    have h2 := genPathLoop_validateFails dir deps context ids names w m (50 - m - 1)
      (if m = 0 then "" else candidatePath dir (names (0 + m - 1)))
      (if m = 0 then context.ID else ids (0 + m - 1))
      ([] ++ collisionCalls dir context ids names 0 m) valid err hfail
    rw [show m + (50 - m) = 50 by omega] at h1
    rw [show 50 - m - 1 + 1 = 50 - m by omega] at h2
    simp only [Nat.zero_add] at h1 h2
    simp only [genPath, Sys.start]
    rw [h1, h2]
    simp
  rw [hrun]
  refine ⟨rfl, rfl, ?_, ?_, ?_, ?_⟩
  · simp [genIds_collisionCalls, attemptCalls, genIds]
  · simp [filenameRenders_collisionCalls, attemptCalls, filenameRenders]
  · simp [validations_collisionCalls, attemptCalls, validations]
  · simp [attemptCalls]

/-- C8 on the scenario: the existence check fails on the first attempt while
reporting the path as valid. -/
theorem genPath_validation_failure_aborts_witness :
    (genPath Scenario.context Scenario.dir
      { Scenario.deps with validatePath := Scenario.deniedValidator }
      (Sys.start (Scenario.world [] 0))).1.path = "" ∧
    (genPath Scenario.context Scenario.dir
      { Scenario.deps with validatePath := Scenario.deniedValidator }
      (Sys.start (Scenario.world [] 0))).1.err =
        some (Error.errorf "permission denied") ∧
    (genIds (genPath Scenario.context Scenario.dir
      { Scenario.deps with validatePath := Scenario.deniedValidator }
      (Sys.start (Scenario.world [] 0))).2.log).length = 1 :=
  have h := genPath_validation_failure_aborts Scenario.dir
    { Scenario.deps with validatePath := Scenario.deniedValidator }
    Scenario.context Scenario.ids Scenario.names (Scenario.world []) 0 true
    (Error.errorf "permission denied") (by decide)
    (fun i hi => absurd hi (Nat.not_lt_zero i))
    ⟨_, _, rfl, rfl, rfl⟩
  ⟨h.1, h.2.1, h.2.2.1⟩

/-! ## Reasoning on the loop for arbitrary collaborators -/

/-- A property holds of every run of the loop if it holds when the iterations
are used up, on each way an attempt ends the loop (render error, validation
error, free path), and is carried over a collision from the rest of the loop. -/
theorem genPathLoop_rule {σ ι : Type} (dir : Dir ι) (deps : createDeps σ)
    (P : Nat → String → renderContext → Sys σ → GenPathResult × Sys σ → Prop)
    (exhausted : ∀ path c s,
      P 0 path c s (⟨"", c, some (Error.errorf (path ++ ": note already exists"))⟩, s))
    (renderErr : ∀ n path c s id w1 err w2,
      deps.genId s.world = (id, w1) →
      deps.filenameTemplate { c with ID := id } w1 = (Except.error err, w2) →
      P (n + 1) path c s
        (⟨"", { c with ID := id }, some err⟩,
         ⟨w2, s.log ++ [Call.genId id,
            Call.renderFilename { c with ID := id } (Except.error err)]⟩))
    (validateErr : ∀ n path c s id w1 name w2 valid err w3,
      deps.genId s.world = (id, w1) →
      deps.filenameTemplate { c with ID := id } w1 = (Except.ok name, w2) →
      deps.validatePath (candidatePath dir name) w2 = ((valid, some err), w3) →
      P (n + 1) path c s
        (⟨"", { c with ID := id }, some err⟩,
         ⟨w3, s.log ++ [Call.genId id,
            Call.renderFilename { c with ID := id } (Except.ok name),
            Call.validatePath (candidatePath dir name) valid (some err)]⟩))
    (free : ∀ n path c s id w1 name w2 w3,
      deps.genId s.world = (id, w1) →
      deps.filenameTemplate { c with ID := id } w1 = (Except.ok name, w2) →
      deps.validatePath (candidatePath dir name) w2 = ((true, none), w3) →
      P (n + 1) path c s
        (⟨candidatePath dir name,
          { c with
            ID := id
            Filename := filepath.Base (candidatePath dir name)
            FilenameStem := paths.FilenameStem (candidatePath dir name) },
          none⟩,
         ⟨w3, s.log ++ [Call.genId id,
            Call.renderFilename { c with ID := id } (Except.ok name),
            Call.validatePath (candidatePath dir name) true none]⟩))
    (collision : ∀ n path c s id w1 name w2 w3 r,
      deps.genId s.world = (id, w1) →
      deps.filenameTemplate { c with ID := id } w1 = (Except.ok name, w2) →
      deps.validatePath (candidatePath dir name) w2 = ((false, none), w3) →
      P n (candidatePath dir name) { c with ID := id }
        ⟨w3, s.log ++ [Call.genId id,
            Call.renderFilename { c with ID := id } (Except.ok name),
            Call.validatePath (candidatePath dir name) false none]⟩ r →
      P (n + 1) path c s r) :
    ∀ n path c s, P n path c s (genPathLoop dir deps n path c s) := by
  intro n
  induction n with
  | zero =>
    intro path c s
    exact exhausted path c s
  | succ n ih =>
    intro path c s
    rcases hg : deps.genId s.world with ⟨id, w1⟩
    rcases hr : deps.filenameTemplate { c with ID := id } w1 with ⟨res, w2⟩
    cases res with
    | error err =>
      have h := renderErr n path c s id w1 err w2 hg hr
      simpa [genPathLoop, hg, hr] using h
    | ok name =>
      rcases hv : deps.validatePath (candidatePath dir name) w2 with ⟨⟨valid, verr⟩, w3⟩
      have hv2 := hv
      simp only [candidatePath] at hv2
      cases verr with
      | some err =>
        have h := validateErr n path c s id w1 name w2 valid err w3 hg hr hv
        simpa [genPathLoop, hg, hr, hv2, candidatePath] using h
      | none =>
        cases valid with
        | true =>
          have h := free n path c s id w1 name w2 w3 hg hr hv
          simpa [genPathLoop, hg, hr, hv2, candidatePath] using h
        | false =>
          have h := collision n path c s id w1 name w2 w3 _ hg hr hv
            (ih (candidatePath dir name) { c with ID := id } _)
          simpa [genPathLoop, hg, hr, hv2, candidatePath] using h

/-- The calls of one run of the loop are added at the end of the log. Every
context given to the filename template is the context of the loop with only
the identifier replaced; the context returned has the title, content,
directory and extra values of the context of the loop. No body render and no
write is made. -/
theorem genPathLoop_frame {σ ι : Type} (dir : Dir ι) (deps : createDeps σ) :
    ∀ n path c s, ∃ new,
      (genPathLoop dir deps n path c s).2.log = s.log ++ new ∧
      (∀ c' ∈ filenameRenders new, ∃ id, c' = { c with ID := id }) ∧
      bodyRenders new = [] ∧ writes new = [] ∧
      sameInputs c (genPathLoop dir deps n path c s).1.context := by
  refine genPathLoop_rule dir deps
    (fun _ _ c s r => ∃ new, r.2.log = s.log ++ new ∧
      (∀ c' ∈ filenameRenders new, ∃ id, c' = { c with ID := id }) ∧
      bodyRenders new = [] ∧ writes new = [] ∧ sameInputs c r.1.context) ?_ ?_ ?_ ?_ ?_
  · intro path c s
    exact ⟨[], by simp, by simp [filenameRenders], rfl, rfl, rfl, rfl, rfl, rfl⟩
  · intro n path c s id w1 err w2 _ _
    exact ⟨_, rfl, by simp [filenameRenders], rfl, rfl, rfl, rfl, rfl, rfl⟩
  · intro n path c s id w1 name w2 valid err w3 _ _ _
    exact ⟨_, rfl, by simp [filenameRenders], rfl, rfl, rfl, rfl, rfl, rfl⟩
  · intro n path c s id w1 name w2 w3 _ _ _
    exact ⟨_, rfl, by simp [filenameRenders], rfl, rfl, rfl, rfl, rfl, rfl⟩
  · intro n path c s id w1 name w2 w3 r _ _ _ ih
    obtain ⟨new, hlog, hren, hbody, hwr, hctx⟩ := ih
    refine ⟨[Call.genId id, Call.renderFilename { c with ID := id } (Except.ok name),
      Call.validatePath (candidatePath dir name) false none] ++ new,
      by rw [hlog, List.append_assoc], ?_, ?_, ?_, hctx⟩
    · intro c' hc'
      simp only [filenameRenders_append, List.mem_append] at hc'
      rcases hc' with hc' | hc'
      · exact ⟨id, by simpa [filenameRenders] using hc'⟩
      · obtain ⟨id'', h⟩ := hren c' hc'
        exact ⟨id'', h⟩
    · simp [bodyRenders, hbody]
    · simp [writes, hwr]

/-! ## The composer, case by case -/

/-- The three ways `create` ends: the resolver fails, the body render fails,
or a note is returned. -/
theorem create_cases {σ ι : Type} (opts : CreateOpts ι) (deps : createDeps σ) (s : Sys σ) :
    (∃ err, (genPath (initialContext opts) opts.Dir deps s).1.err = some err ∧
      create opts deps s = ((none, some err), (genPath (initialContext opts) opts.Dir deps s).2)) ∨
    ((genPath (initialContext opts) opts.Dir deps s).1.err = none ∧
      ∃ err w',
        deps.bodyTemplate (genPath (initialContext opts) opts.Dir deps s).1.context
          (genPath (initialContext opts) opts.Dir deps s).2.world = (Except.error err, w') ∧
        create opts deps s = ((none, some err),
          ⟨w', (genPath (initialContext opts) opts.Dir deps s).2.log ++
            [Call.renderBody (genPath (initialContext opts) opts.Dir deps s).1.context
              (Except.error err)]⟩)) ∨
    ((genPath (initialContext opts) opts.Dir deps s).1.err = none ∧
      ∃ content w',
        deps.bodyTemplate (genPath (initialContext opts) opts.Dir deps s).1.context
          (genPath (initialContext opts) opts.Dir deps s).2.world = (Except.ok content, w') ∧
        create opts deps s =
          ((some ⟨(genPath (initialContext opts) opts.Dir deps s).1.path, content⟩, none),
          ⟨w', (genPath (initialContext opts) opts.Dir deps s).2.log ++
            [Call.renderBody (genPath (initialContext opts) opts.Dir deps s).1.context
              (Except.ok content)]⟩)) := by
  cases hg : (genPath (initialContext opts) opts.Dir deps s).1.err with
  | some err =>
    left
    exact ⟨err, rfl, by simp [create, hg]⟩
  | none =>
    right
    rcases hb : deps.bodyTemplate (genPath (initialContext opts) opts.Dir deps s).1.context
      (genPath (initialContext opts) opts.Dir deps s).2.world with ⟨res, w'⟩
    cases res with
    | error err =>
      left
      exact ⟨rfl, err, w', rfl, by simp [create, hg, hb]⟩
    | ok content =>
      right
      exact ⟨rfl, content, w', rfl, by simp [create, hg, hb]⟩

/-- The calls of `genPath`, as `genPathLoop_frame` gives them. -/
theorem genPath_frame {σ ι : Type} (dir : Dir ι) (deps : createDeps σ)
    (c : renderContext) (s : Sys σ) : ∃ new,
      (genPath c dir deps s).2.log = s.log ++ new ∧
      (∀ c' ∈ filenameRenders new, ∃ id, c' = { c with ID := id }) ∧
      bodyRenders new = [] ∧ writes new = [] ∧
      sameInputs c (genPath c dir deps s).1.context :=
  genPathLoop_frame dir deps 50 "" c s

/-! ## C3: title and content of the render context -/

/-- C3. In the render context built by `create`, the title is the default
title of the directory when the supplied title is absent or the empty string,
and the supplied title when it is non-empty; the content is the supplied
content, or the empty string when absent. Every context passed to the filename template
and to the body template carries this title and this content. -/
theorem create_context_title_content {σ ι : Type} (opts : CreateOpts ι)
    (deps : createDeps σ) (w : σ) :
    ((opts.Title = none ∨ opts.Title = some "") →
      (initialContext opts).Title = opts.Dir.Config.DefaultTitle) ∧
    (∀ t, opts.Title = some t → t ≠ "" → (initialContext opts).Title = t) ∧
    (∀ c, opts.Content = some c → (initialContext opts).Content = c) ∧
    (opts.Content = none → (initialContext opts).Content = "") ∧
    (∀ c ∈ filenameRenders (create opts deps (Sys.start w)).2.log,
      c.Title = (initialContext opts).Title ∧ c.Content = (initialContext opts).Content) ∧
    (∀ b ∈ bodyRenders (create opts deps (Sys.start w)).2.log,
      b.1.Title = (initialContext opts).Title ∧
      b.1.Content = (initialContext opts).Content) := by
  obtain ⟨new, hlog, hren, hbody, -, hsame⟩ :=
    genPath_frame opts.Dir deps (initialContext opts) (Sys.start w)
  have hren' : ∀ c ∈ filenameRenders (genPath (initialContext opts) opts.Dir deps
      (Sys.start w)).2.log,
      c.Title = (initialContext opts).Title ∧ c.Content = (initialContext opts).Content := by
    intro c hc
    rw [hlog] at hc
    simp only [Sys.start, List.nil_append] at hc
    obtain ⟨id, rfl⟩ := hren c hc
    exact ⟨rfl, rfl⟩
  have hbody' : bodyRenders (genPath (initialContext opts) opts.Dir deps
      (Sys.start w)).2.log = [] := by
    rw [hlog]
    simpa [Sys.start] using hbody
  refine ⟨?_, ?_, ?_, ?_, ?_, ?_⟩
  · rintro (h | h) <;> simp [initialContext, opt.OrDefault, h]
  · intro t h ht
    simp [initialContext, opt.OrDefault, h, ht]
  · intro c h
    simp [initialContext, opt.Unwrap, h]
  · intro h
    simp [initialContext, opt.Unwrap, h]
  · intro c hc
    rcases create_cases opts deps (Sys.start w) with ⟨err, -, h⟩ | ⟨-, err, w', -, h⟩ |
      ⟨-, content, w', -, h⟩
    · rw [h] at hc
      exact hren' c hc
    · rw [h] at hc
      simp only [filenameRenders_append, filenameRenders, List.append_nil] at hc
      exact hren' c hc
    · rw [h] at hc
      simp only [filenameRenders_append, filenameRenders, List.append_nil] at hc
      exact hren' c hc
  · intro b hb
    rcases create_cases opts deps (Sys.start w) with ⟨err, -, h⟩ | ⟨-, err, w', -, h⟩ |
      ⟨-, content, w', -, h⟩
    · rw [h, hbody'] at hb
      simp at hb
    · rw [h] at hb
      simp only [bodyRenders_append, hbody', bodyRenders, List.nil_append,
        List.mem_singleton] at hb
      subst hb
      exact ⟨hsame.1, hsame.2.1⟩
    · rw [h] at hb
      simp only [bodyRenders_append, hbody', bodyRenders, List.nil_append,
        List.mem_singleton] at hb
      subst hb
      exact ⟨hsame.1, hsame.2.1⟩

/-! ## What a run of the resolver leaves behind -/

@[simp] theorem collisions_append (l₁ l₂ : List Call) :
    collisions (l₁ ++ l₂) = collisions l₁ + collisions l₂ := by
  induction l₁ with
  | nil => simp [collisions]
  | cons c l ih =>
    cases c with
    | validatePath p valid err =>
      cases valid
      · cases err
        · simp [collisions, ih]
          omega
        · simp [collisions, ih]
      · cases err
        · simp [collisions, ih]
        · simp [collisions, ih]
    | _ => simp [collisions, ih]

/-- When the loop succeeds, none of its calls failed, fewer collisions occurred
than iterations were left, its last call is the validation that reported the
returned path as free, and the context returned is the context of the loop
with the last identifier generated, the base name and the stem of the returned
path. When it fails, the path returned is empty. -/
theorem genPathLoop_outcome {σ ι : Type} (dir : Dir ι) (deps : createDeps σ) :
    ∀ n path c s, ∃ new,
      (genPathLoop dir deps n path c s).2.log = s.log ++ new ∧
      ((genPathLoop dir deps n path c s).1.err = none →
        (∀ x ∈ new, x.failsBeforeWrite = false) ∧ collisions new < n ∧
        new.getLast? =
          some (Call.validatePath (genPathLoop dir deps n path c s).1.path true none) ∧
        ∃ id, (genIds new).getLast? = some id ∧
          (genPathLoop dir deps n path c s).1.context =
            { c with
              ID := id
              Filename := filepath.Base (genPathLoop dir deps n path c s).1.path
              FilenameStem := paths.FilenameStem (genPathLoop dir deps n path c s).1.path }) ∧
      ((genPathLoop dir deps n path c s).1.err ≠ none →
        (genPathLoop dir deps n path c s).1.path = "") := by
  refine genPathLoop_rule dir deps
    (fun n _ c s r => ∃ new, r.2.log = s.log ++ new ∧
      (r.1.err = none →
        (∀ x ∈ new, x.failsBeforeWrite = false) ∧ collisions new < n ∧
        new.getLast? = some (Call.validatePath r.1.path true none) ∧
        ∃ id, (genIds new).getLast? = some id ∧
          r.1.context =
            { c with
              ID := id
              Filename := filepath.Base r.1.path
              FilenameStem := paths.FilenameStem r.1.path }) ∧
      (r.1.err ≠ none → r.1.path = "")) ?_ ?_ ?_ ?_ ?_
  · intro path c s
    exact ⟨[], by simp, by simp, fun _ => rfl⟩
  · intro n path c s id w1 err w2 _ _
    exact ⟨_, rfl, by simp, fun _ => rfl⟩
  · intro n path c s id w1 name w2 valid err w3 _ _ _
    exact ⟨_, rfl, by simp, fun _ => rfl⟩
  · intro n path c s id w1 name w2 w3 _ _ _
    refine ⟨_, rfl, fun _ => ⟨?_, ?_, ?_, id, ?_, rfl⟩, fun h => absurd rfl h⟩
    · intro x hx
      simp only [List.mem_cons, List.mem_singleton, List.not_mem_nil, or_false] at hx
      rcases hx with rfl | rfl | rfl <;> rfl
    · simp [collisions]
    · simp
    · simp [genIds]
  · intro n path c s id w1 name w2 w3 r _ _ _ ih
    obtain ⟨new, hlog, hok, hfail⟩ := ih
    refine ⟨[Call.genId id, Call.renderFilename { c with ID := id } (Except.ok name),
      Call.validatePath (candidatePath dir name) false none] ++ new,
      by rw [hlog, List.append_assoc], ?_, hfail⟩
    intro hnone
    obtain ⟨hcalls, hcol, hlast, id', hid', hctx⟩ := hok hnone
    have hne : new ≠ [] := by
      intro h
      rw [h] at hlast
      simp at hlast
    have hne' : genIds new ≠ [] := by
      intro h
      rw [h] at hid'
      simp at hid'
    refine ⟨?_, ?_, ?_, id', ?_, hctx⟩
    · intro x hx
      simp only [List.mem_append, List.mem_cons, List.mem_singleton, List.not_mem_nil,
        or_false] at hx
      rcases hx with (rfl | rfl | rfl) | hx
      · rfl
      · rfl
      · rfl
      · exact hcalls x hx
    · have e : collisions ([Call.genId id,
          Call.renderFilename { c with ID := id } (Except.ok name),
          Call.validatePath (candidatePath dir name) false none] ++ new) =
          collisions new + 1 := by
        simp [collisions]
      omega
    · rw [List.getLast?_append_of_ne_nil _ hne]
      exact hlast
    · rw [genIds_append, List.getLast?_append_of_ne_nil _ hne']
      exact hid'

/-- A run of the loop leaves unchanged every observation of the world that
its collaborators leave unchanged. -/
theorem genPathLoop_preserves {σ ι F : Type} (dir : Dir ι) (deps : createDeps σ)
    (fs : σ → F) (h : Preserves fs deps) :
    ∀ n path c s, fs (genPathLoop dir deps n path c s).2.world = fs s.world := by
  obtain ⟨hgen, hren, -, hval⟩ := h
  have e1 : ∀ (w w1 : σ) (id : String), deps.genId w = (id, w1) → fs w1 = fs w :=
    fun w w1 id hg => by simpa [hg] using hgen w
  have e2 : ∀ (c : renderContext) (w w1 : σ) (res : Except Error String),
      deps.filenameTemplate c w = (res, w1) → fs w1 = fs w :=
    fun c w w1 res hr => by simpa [hr] using hren c w
  have e3 : ∀ (p : String) (w w1 : σ) (res : Bool × Option Error),
      deps.validatePath p w = (res, w1) → fs w1 = fs w :=
    fun p w w1 res hv => by simpa [hv] using hval p w
  refine genPathLoop_rule dir deps (fun _ _ _ s r => fs r.2.world = fs s.world)
    ?_ ?_ ?_ ?_ ?_
  · intro path c s
    rfl
  · intro n path c s id w1 err w2 hg hr
    exact (e2 _ _ _ _ hr).trans (e1 _ _ _ hg)
  · intro n path c s id w1 name w2 valid err w3 hg hr hv
    exact (e3 _ _ _ _ hv).trans ((e2 _ _ _ _ hr).trans (e1 _ _ _ hg))
  · intro n path c s id w1 name w2 w3 hg hr hv
    exact (e3 _ _ _ _ hv).trans ((e2 _ _ _ _ hr).trans (e1 _ _ _ hg))
  · intro n path c s id w1 name w2 w3 r hg hr hv ih
    exact ih.trans ((e3 _ _ _ _ hv).trans ((e2 _ _ _ _ hr).trans (e1 _ _ _ hg)))

/-! ## The entry point, case by case -/

/-- The ways `Create` ends: the filename template fails to load; the body
template fails to load; or both are loaded and `create` is run, after which
`create` fails, or returns neither note nor error, or the write fails, or the
write succeeds. -/
theorem Create_cases {σ ι : Type} (env : Env σ ι) (opts : CreateOpts ι)
    (templateLoader : Loader σ) (s : Sys σ) :
    (∃ err w1,
      templateLoader.Load opts.Dir.Config.FilenameTemplate s.world = (Except.error err, w1) ∧
      Create env opts templateLoader s =
        (some ("", some err),
         ⟨w1, s.log ++ [Call.load opts.Dir.Config.FilenameTemplate (some err)]⟩)) ∨
    (∃ filenameTemplate w1 err w2,
      templateLoader.Load opts.Dir.Config.FilenameTemplate s.world =
        (Except.ok filenameTemplate, w1) ∧
      opt.Unwrap opts.Dir.Config.BodyTemplatePath ≠ "" ∧
      templateLoader.LoadFile (opt.Unwrap opts.Dir.Config.BodyTemplatePath) w1 =
        (Except.error err, w2) ∧
      Create env opts templateLoader s =
        (some ("", some (Error.wrapf "new note" err)),
         ⟨w2, s.log ++ [Call.load opts.Dir.Config.FilenameTemplate none] ++
           [Call.loadFile (opt.Unwrap opts.Dir.Config.BodyTemplatePath) (some err)]⟩)) ∨
    (∃ filenameTemplate w1 bodyTemplate s2,
      templateLoader.Load opts.Dir.Config.FilenameTemplate s.world =
        (Except.ok filenameTemplate, w1) ∧
      BodyLoaded opts templateLoader
        ⟨w1, s.log ++ [Call.load opts.Dir.Config.FilenameTemplate none]⟩ bodyTemplate s2 ∧
      ((∃ err, (create opts (depsOf env opts filenameTemplate bodyTemplate) s2).1.2 = some err ∧
          Create env opts templateLoader s =
            (some ("", some (Error.wrapf "new note" err)),
             (create opts (depsOf env opts filenameTemplate bodyTemplate) s2).2)) ∨
       ((create opts (depsOf env opts filenameTemplate bodyTemplate) s2).1 = (none, none) ∧
          Create env opts templateLoader s =
            (none, (create opts (depsOf env opts filenameTemplate bodyTemplate) s2).2)) ∨
       (∃ note err w3,
          (create opts (depsOf env opts filenameTemplate bodyTemplate) s2).1 =
            (some note, none) ∧
          env.WriteString note.path note.content
            (create opts (depsOf env opts filenameTemplate bodyTemplate) s2).2.world =
              (some err, w3) ∧
          Create env opts templateLoader s =
            (some ("", some (Error.wrapf "new note" err)),
             ⟨w3, (create opts (depsOf env opts filenameTemplate bodyTemplate) s2).2.log ++
               [Call.writeString note.path note.content (some err)]⟩)) ∨
       (∃ note w3,
          (create opts (depsOf env opts filenameTemplate bodyTemplate) s2).1 =
            (some note, none) ∧
          env.WriteString note.path note.content
            (create opts (depsOf env opts filenameTemplate bodyTemplate) s2).2.world =
              (none, w3) ∧
          Create env opts templateLoader s =
            (some (note.path, none),
             ⟨w3, (create opts (depsOf env opts filenameTemplate bodyTemplate) s2).2.log ++
               [Call.writeString note.path note.content none]⟩)))) := by
  rcases hl : templateLoader.Load opts.Dir.Config.FilenameTemplate s.world with ⟨res, w1⟩
  cases res with
  | error err =>
    left
    exact ⟨err, w1, rfl, by simp [Create, hl, loadErr]⟩
  | ok filenameTemplate =>
    right
    have tail : ∀ (bodyTemplate : Renderer σ) (s2 : Sys σ)
        (r : Option (String × Option Error) × Sys σ),
        r = (match (create opts (depsOf env opts filenameTemplate bodyTemplate) s2).1.2 with
          | some err => (some ("", some (errors.Wrapperf "new note" err)),
              (create opts (depsOf env opts filenameTemplate bodyTemplate) s2).2)
          | none =>
            match (create opts (depsOf env opts filenameTemplate bodyTemplate) s2).1.1 with
            | none => (none, (create opts (depsOf env opts filenameTemplate bodyTemplate) s2).2)
            | some createdNote =>
              match (env.WriteString createdNote.path createdNote.content
                (create opts (depsOf env opts filenameTemplate bodyTemplate) s2).2.world).1 with
              | some err => (some ("", some (errors.Wrapperf "new note" err)),
                  Sys.mk (env.WriteString createdNote.path createdNote.content
                    (create opts (depsOf env opts filenameTemplate bodyTemplate) s2).2.world).2
                  ((create opts (depsOf env opts filenameTemplate bodyTemplate) s2).2.log ++
                    [Call.writeString createdNote.path createdNote.content
                      (env.WriteString createdNote.path createdNote.content
                        (create opts (depsOf env opts filenameTemplate bodyTemplate)
                          s2).2.world).1]))
              | none => (some (createdNote.path, none),
                  Sys.mk (env.WriteString createdNote.path createdNote.content
                    (create opts (depsOf env opts filenameTemplate bodyTemplate) s2).2.world).2
                  ((create opts (depsOf env opts filenameTemplate bodyTemplate) s2).2.log ++
                    [Call.writeString createdNote.path createdNote.content
                      (env.WriteString createdNote.path createdNote.content
                        (create opts (depsOf env opts filenameTemplate bodyTemplate)
                          s2).2.world).1]))) →
        ((∃ err, (create opts (depsOf env opts filenameTemplate bodyTemplate) s2).1.2 =
              some err ∧
            r = (some ("", some (Error.wrapf "new note" err)),
               (create opts (depsOf env opts filenameTemplate bodyTemplate) s2).2)) ∨
         ((create opts (depsOf env opts filenameTemplate bodyTemplate) s2).1 = (none, none) ∧
            r = (none, (create opts (depsOf env opts filenameTemplate bodyTemplate) s2).2)) ∨
         (∃ note err w3,
            (create opts (depsOf env opts filenameTemplate bodyTemplate) s2).1 =
              (some note, none) ∧
            env.WriteString note.path note.content
              (create opts (depsOf env opts filenameTemplate bodyTemplate) s2).2.world =
                (some err, w3) ∧
            r = (some ("", some (Error.wrapf "new note" err)),
               ⟨w3, (create opts (depsOf env opts filenameTemplate bodyTemplate) s2).2.log ++
                 [Call.writeString note.path note.content (some err)]⟩)) ∨
         (∃ note w3,
            (create opts (depsOf env opts filenameTemplate bodyTemplate) s2).1 =
              (some note, none) ∧
            env.WriteString note.path note.content
              (create opts (depsOf env opts filenameTemplate bodyTemplate) s2).2.world =
                (none, w3) ∧
            r = (some (note.path, none),
               ⟨w3, (create opts (depsOf env opts filenameTemplate bodyTemplate) s2).2.log ++
                 [Call.writeString note.path note.content none]⟩))) := by
      intro bodyTemplate s2 r hr
      rcases hc : create opts (depsOf env opts filenameTemplate bodyTemplate) s2 with
        ⟨⟨note, cerr⟩, s3⟩
      rw [hc] at hr
      cases cerr with
      | some err =>
        left
        exact ⟨err, rfl, by simpa [errors.Wrapperf] using hr⟩
      | none =>
        right
        cases note with
        | none =>
          left
          exact ⟨rfl, by simpa using hr⟩
        | some note =>
          right
          rcases hw : env.WriteString note.path note.content s3.world with ⟨werr, w3⟩
          simp only [hw] at hr
          cases werr with
          | some err =>
            left
            exact ⟨note, err, w3, rfl, hw, by simpa [errors.Wrapperf] using hr⟩
          | none =>
            right
            exact ⟨note, w3, rfl, hw, by simpa using hr⟩
    by_cases htp : opt.Unwrap opts.Dir.Config.BodyTemplatePath = ""
    · right
      refine ⟨filenameTemplate, w1, NullRenderer, _, rfl, Or.inl ⟨htp, rfl, rfl⟩, ?_⟩
      apply tail
      simp [Create, hl, htp, loadErr, depsOf]
    · rcases hf : templateLoader.LoadFile (opt.Unwrap opts.Dir.Config.BodyTemplatePath) w1
        with ⟨res, w2⟩
      cases res with
      | error err =>
        left
        exact ⟨filenameTemplate, w1, err, w2, rfl, htp, hf,
          by simp [Create, hl, htp, hf, loadErr, errors.Wrapperf]⟩
      | ok bodyTemplate =>
        right
        refine ⟨filenameTemplate, w1, bodyTemplate, _, rfl,
          Or.inr ⟨htp, w2, hf, rfl⟩, ?_⟩
        apply tail
        simp [Create, hl, htp, hf, loadErr, depsOf]

/-! ## What a run of the composer leaves behind -/

/-- The calls of `create` are added at the end of the log and contain no
write. When a note is returned there is no error, none of the calls failed,
fewer than 50 collisions occurred, the path of the note was reported free by
the validator, and the body template was rendered once, to the content of the
note, against the initial context completed with the last identifier
generated, the base name and the stem of the path. When no note is returned
there is an error. -/
theorem create_outcome {σ ι : Type} (opts : CreateOpts ι) (deps : createDeps σ)
    (s : Sys σ) : ∃ new,
      (create opts deps s).2.log = s.log ++ new ∧ writes new = [] ∧
      (∀ note, (create opts deps s).1.1 = some note →
        (create opts deps s).1.2 = none ∧
        (∀ x ∈ new, x.failsBeforeWrite = false) ∧ collisions new < 50 ∧
        Call.validatePath note.path true none ∈ new ∧
        ∃ id, (genIds new).getLast? = some id ∧
          bodyRenders new =
            [({ initialContext opts with
                ID := id
                Filename := filepath.Base note.path
                FilenameStem := paths.FilenameStem note.path },
              Except.ok note.content)]) ∧
      ((create opts deps s).1.1 = none → ∃ err, (create opts deps s).1.2 = some err) := by
  obtain ⟨new, hlog, -, hbody, hwr, -⟩ :=
    genPath_frame opts.Dir deps (initialContext opts) s
  obtain ⟨new', hlog', hok, -⟩ :=
    genPathLoop_outcome opts.Dir deps 50 "" (initialContext opts) s
  have hnew : new' = new := by
    have : s.log ++ new' = s.log ++ new := by
      rw [← hlog', ← hlog]
      rfl
    exact List.append_cancel_left this
  subst hnew
  rcases create_cases opts deps s with ⟨err, -, h⟩ | ⟨-, err, w', -, h⟩ |
    ⟨hnone, content, w', -, h⟩
  · refine ⟨new', by rw [h, hlog], hwr, ?_, fun _ => ⟨err, by rw [h]⟩⟩
    intro note hnote
    rw [h] at hnote
    simp at hnote
  · refine ⟨new' ++ [Call.renderBody
        (genPath (initialContext opts) opts.Dir deps s).1.context (Except.error err)],
      by rw [h, hlog, List.append_assoc], by simp [hwr, writes], ?_,
      fun _ => ⟨err, by rw [h]⟩⟩
    intro note hnote
    rw [h] at hnote
    simp at hnote
  · obtain ⟨hcalls, hcol, hlast, id, hid, hctx⟩ := hok hnone
    refine ⟨new' ++ [Call.renderBody
        (genPath (initialContext opts) opts.Dir deps s).1.context (Except.ok content)],
      by rw [h, hlog, List.append_assoc], by simp [hwr, writes], ?_, ?_⟩
    · intro note hnote
      rw [h] at hnote
      simp only [Option.some.injEq] at hnote
      subst hnote
      refine ⟨by rw [h], ?_, ?_, ?_, id, ?_, ?_⟩
      · intro x hx
        simp only [List.mem_append, List.mem_singleton] at hx
        rcases hx with hx | rfl
        · exact hcalls x hx
        · rfl
      · simp only [collisions_append, collisions]
        omega
      · exact List.mem_append_left _ (List.mem_of_mem_getLast? hlast)
      · simp [genIds, hid]
      · simp only [bodyRenders_append, hbody, bodyRenders, List.nil_append]
        rw [show (genPath (initialContext opts) opts.Dir deps s).1.context = _ from hctx]
        rfl
    · intro hnote
      rw [h] at hnote
      simp at hnote

/-- A run of `create` leaves unchanged every observation of the world that
its collaborators leave unchanged. -/
theorem create_preserves {σ ι F : Type} (opts : CreateOpts ι) (deps : createDeps σ)
    (fs : σ → F) (h : Preserves fs deps) (s : Sys σ) :
    fs (create opts deps s).2.world = fs s.world := by
  have hg : fs (genPath (initialContext opts) opts.Dir deps s).2.world = fs s.world :=
    genPathLoop_preserves opts.Dir deps fs h 50 "" (initialContext opts) s
  have hb : ∀ (c : renderContext) (w w1 : σ) (res : Except Error String),
      deps.bodyTemplate c w = (res, w1) → fs w1 = fs w :=
    fun c w w1 res hr => by simpa [hr] using h.2.2.1 c w
  rcases create_cases opts deps s with ⟨err, -, e⟩ | ⟨-, err, w', hr, e⟩ |
    ⟨-, content, w', hr, e⟩
  · rw [e]
    exact hg
  · rw [e]
    exact (hb _ _ _ _ hr).trans hg
  · rw [e]
    exact (hb _ _ _ _ hr).trans hg

/-! ## C4: wrapping of errors -/

/-- C4, on the scenario. When loading the filename template fails with
`parse error`, `Create` returns that error as it is, without the context
`new note`; when loading the body template file fails with the same error,
`Create` returns it wrapped with the context `new note`. -/
theorem Create_filename_load_error_not_wrapped :
    (Create Scenario.env Scenario.opts
      { Scenario.loader with Load := Scenario.failingLoad }
      (Sys.start (Scenario.world [] 0))).1 =
        some ("", some (Error.errorf "parse error")) ∧
    (Create Scenario.env Scenario.opts
      { Scenario.loader with LoadFile := Scenario.failingLoad }
      (Sys.start (Scenario.world [] 0))).1 =
        some ("", some (Error.wrapf "new note" (Error.errorf "parse error"))) := by
  constructor
  · rfl
  · rfl

/-! ## C5: no write on failure -/

/-- With the templates loaded, the log holds what it held and at most a
successful load of the body template file. -/
theorem BodyLoaded_log {σ ι : Type} (opts : CreateOpts ι) (templateLoader : Loader σ)
    (s1 : Sys σ) (bodyTemplate : Renderer σ) (s2 : Sys σ)
    (hb : BodyLoaded opts templateLoader s1 bodyTemplate s2) :
    writes s2.log = writes s1.log ∧ bodyRenders s2.log = bodyRenders s1.log ∧
    collisions s2.log = collisions s1.log ∧
    (∀ x ∈ s2.log, x ∈ s1.log ∨ x.failsBeforeWrite = false) := by
  rcases hb with ⟨-, -, rfl⟩ | ⟨-, w2, -, rfl⟩
  · exact ⟨rfl, rfl, rfl, fun x hx => Or.inl hx⟩
  · refine ⟨by simp [writes], by simp [bodyRenders], by simp [collisions], ?_⟩
    intro x hx
    simp only [List.mem_append, List.mem_singleton] at hx
    rcases hx with hx | rfl
    · exact Or.inl hx
    · exact Or.inr rfl

/-- With the templates loaded, the world from which `create` is run shows the
same observation as the world of the start, and the dependencies handed to
`create` leave the observation unchanged. -/
theorem BodyLoaded_preserves {σ ι F : Type} (env : Env σ ι) (opts : CreateOpts ι)
    (templateLoader : Loader σ) (fs : σ → F) (hfs : LeavesUnchanged fs env templateLoader)
    (w w1 : σ) (log : List Call) (filenameTemplate bodyTemplate : Renderer σ) (s2 : Sys σ)
    (hl : templateLoader.Load opts.Dir.Config.FilenameTemplate w =
      (Except.ok filenameTemplate, w1))
    (hb : BodyLoaded opts templateLoader ⟨w1, log⟩ bodyTemplate s2) :
    fs s2.world = fs w ∧ Preserves fs (depsOf env opts filenameTemplate bodyTemplate) := by
  obtain ⟨hLoad, hLoadFile, hFt, hBt, hGen, hEx⟩ := hfs
  have hw1 : fs w1 = fs w := by
    have h0 := hLoad opts.Dir.Config.FilenameTemplate w
    rw [hl] at h0
    exact h0
  have hval : ∀ p v, fs (validatePath env p v).2 = fs v := fun p v => hEx p v
  rcases hb with ⟨-, rfl, rfl⟩ | ⟨-, w2, hf, rfl⟩
  · exact ⟨hw1, fun v => hGen _ v, fun c u => hFt _ _ _ _ hl c u, fun _ _ => rfl, hval⟩
  · have hw2 : fs w2 = fs w1 := by
      have h0 := hLoadFile (opt.Unwrap opts.Dir.Config.BodyTemplatePath) w1
      rw [hf] at h0
      exact h0
    exact ⟨hw2.trans hw1, fun v => hGen _ v, fun c u => hFt _ _ _ _ hl c u,
      fun c u => hBt _ _ _ _ hf c u, hval⟩

/-- C5. Whenever a step before the write fails in a run of `Create` (a call
that loads the filename template or the body template, renders the filename,
validates a path or renders the body returns an error, or 50 candidates
collide), `Create` returns an error and an empty path and the write helper is
never called; every observation `fs` of the world that the other
collaborators leave unchanged, such as the files that exist, is then
unchanged. -/
theorem Create_failure_writes_nothing {σ ι F : Type} (env : Env σ ι)
    (opts : CreateOpts ι) (templateLoader : Loader σ) (w : σ) (fs : σ → F)
    (hfail : (∃ c ∈ (Create env opts templateLoader (Sys.start w)).2.log,
        c.failsBeforeWrite = true) ∨
      50 ≤ collisions (Create env opts templateLoader (Sys.start w)).2.log) :
    (∃ err, (Create env opts templateLoader (Sys.start w)).1 = some ("", some err)) ∧
    writes (Create env opts templateLoader (Sys.start w)).2.log = [] ∧
    (LeavesUnchanged fs env templateLoader →
      fs (Create env opts templateLoader (Sys.start w)).2.world = fs w) := by
  rcases Create_cases env opts templateLoader (Sys.start w) with
    ⟨err, w1, hl, h⟩ | ⟨ft, w1, err, w2, hl, -, hf, h⟩ | ⟨ft, w1, bt, s2, hl, hb, hrest⟩
  · rw [h]
    refine ⟨⟨err, rfl⟩, rfl, fun hfs => ?_⟩
    have h0 := hfs.1 opts.Dir.Config.FilenameTemplate w
    have hl' : templateLoader.Load opts.Dir.Config.FilenameTemplate w =
        (Except.error err, w1) := hl
    rw [hl'] at h0
    exact h0
  · rw [h]
    refine ⟨⟨_, rfl⟩, rfl, fun hfs => ?_⟩
    have h1 := hfs.1 opts.Dir.Config.FilenameTemplate w
    have hl' : templateLoader.Load opts.Dir.Config.FilenameTemplate w =
        (Except.ok ft, w1) := hl
    rw [hl'] at h1
    have h2 := hfs.2.1 (opt.Unwrap opts.Dir.Config.BodyTemplatePath) w1
    rw [hf] at h2
    exact h2.trans h1
  · obtain ⟨hwr2, -, hcol2, hcalls2⟩ := BodyLoaded_log opts templateLoader _ bt s2 hb
    have hcalls2' : ∀ x ∈ s2.log, x.failsBeforeWrite = false := by
      intro x hx
      rcases hcalls2 x hx with hx' | hx'
      · simp only [Sys.start, List.nil_append, List.mem_singleton] at hx'
        subst hx'
        rfl
      · exact hx'
    have hcol2' : collisions s2.log = 0 := by
      rw [hcol2]
      rfl
    obtain ⟨new, hlog, hwr, hsome, hnone⟩ := create_outcome opts (depsOf env opts ft bt) s2
    rcases hrest with ⟨err, -, h⟩ | ⟨hnn, -⟩ | ⟨note, err, w3, hc, -, h⟩ |
      ⟨note, w3, hc, -, h⟩
    · rw [h]
      refine ⟨⟨_, rfl⟩, ?_, fun hfs => ?_⟩
      · rw [hlog, writes_append, hwr2, hwr]
        rfl
      · obtain ⟨hfs2, hpres⟩ :=
          BodyLoaded_preserves env opts templateLoader fs hfs w w1 _ ft bt s2 hl hb
        exact (create_preserves opts (depsOf env opts ft bt) fs hpres s2).trans hfs2
    · obtain ⟨err, herr⟩ := hnone (by rw [hnn])
      rw [hnn] at herr
      simp at herr
    · exfalso
      obtain ⟨-, hcalls, hcol, -⟩ := hsome note (by rw [hc])
      rw [h] at hfail
      simp only [hlog] at hfail
      rcases hfail with ⟨c, hc', hbad⟩ | hfail
      · simp only [List.mem_append, List.mem_singleton] at hc'
        rcases hc' with (hc' | hc') | rfl
        · rw [hcalls2' c hc'] at hbad
          simp at hbad
        · rw [hcalls c hc'] at hbad
          simp at hbad
        · simp [Call.failsBeforeWrite] at hbad
      · simp only [collisions_append, hcol2', collisions] at hfail
        omega
    · exfalso
      obtain ⟨-, hcalls, hcol, -⟩ := hsome note (by rw [hc])
      rw [h] at hfail
      simp only [hlog] at hfail
      rcases hfail with ⟨c, hc', hbad⟩ | hfail
      · simp only [List.mem_append, List.mem_singleton] at hc'
        rcases hc' with (hc' | hc') | rfl
        · rw [hcalls2' c hc'] at hbad
          simp at hbad
        · rw [hcalls c hc'] at hbad
          simp at hbad
        · simp [Call.failsBeforeWrite] at hbad
      · simp only [collisions_append, hcol2', collisions] at hfail
        omega

/-- C5 on the scenario with a filename template that cannot be rendered: the
failed render is in the log, `Create` returns an error and an empty path,
nothing is written and the files are those of the start. -/
theorem Create_failure_writes_nothing_witness :
    (∃ c ∈ (Create Scenario.env Scenario.opts Scenario.brokenLoader
        (Sys.start (Scenario.world [] 0))).2.log, c.failsBeforeWrite = true) ∧
    (∃ err, (Create Scenario.env Scenario.opts Scenario.brokenLoader
        (Sys.start (Scenario.world [] 0))).1 = some ("", some err)) ∧
    writes (Create Scenario.env Scenario.opts Scenario.brokenLoader
        (Sys.start (Scenario.world [] 0))).2.log = [] ∧
    (Create Scenario.env Scenario.opts Scenario.brokenLoader
        (Sys.start (Scenario.world [] 0))).2.world.files = [] :=
  have hfail : ∃ c ∈ (Create Scenario.env Scenario.opts Scenario.brokenLoader
      (Sys.start (Scenario.world [] 0))).2.log, c.failsBeforeWrite = true :=
    by decide
  have hfs : LeavesUnchanged Scenario.World.files Scenario.env Scenario.brokenLoader :=
    ⟨fun _ _ => rfl, fun _ _ => rfl,
      fun _ _ r _ h c u => by
        simp only [Scenario.brokenLoader, Prod.mk.injEq, Except.ok.injEq] at h
        obtain ⟨rfl, -⟩ := h
        rfl,
      fun _ _ r _ h c u => by
        simp only [Scenario.brokenLoader, Prod.mk.injEq, Except.ok.injEq] at h
        obtain ⟨rfl, -⟩ := h
        rfl,
      fun _ _ => rfl, fun _ _ => rfl⟩
  have h := Create_failure_writes_nothing Scenario.env Scenario.opts Scenario.brokenLoader
    (Scenario.world [] 0) Scenario.World.files (Or.inl hfail)
  ⟨hfail, h.1, h.2.1, h.2.2 hfs⟩

/-! ## C6: exactly one write on success -/

/-- C6. Whenever `Create` succeeds and returns `path`, the write helper has been
called exactly once, as the last call of the run and without error, with
`path` and the content the body template rendered (the body template being
rendered once); `path` is a path that the validator reported as free. -/
theorem Create_success_writes_once {σ ι : Type} (env : Env σ ι) (opts : CreateOpts ι)
    (templateLoader : Loader σ) (w : σ) (path : String)
    (h : (Create env opts templateLoader (Sys.start w)).1 = some (path, none)) :
    ∃ context content,
      writes (Create env opts templateLoader (Sys.start w)).2.log = [(path, content)] ∧
      (Create env opts templateLoader (Sys.start w)).2.log.getLast? =
        some (Call.writeString path content none) ∧
      bodyRenders (Create env opts templateLoader (Sys.start w)).2.log =
        [(context, Except.ok content)] ∧
      Call.validatePath path true none ∈
        (Create env opts templateLoader (Sys.start w)).2.log := by
  rcases Create_cases env opts templateLoader (Sys.start w) with
    ⟨err, w1, -, e⟩ | ⟨ft, w1, err, w2, -, -, -, e⟩ | ⟨ft, w1, bt, s2, -, hb, hrest⟩
  · rw [e] at h
    simp at h
  · rw [e] at h
    simp at h
  · obtain ⟨hwr2, hbody2, -, -⟩ := BodyLoaded_log opts templateLoader _ bt s2 hb
    obtain ⟨new, hlog, hwr, hsome, -⟩ := create_outcome opts (depsOf env opts ft bt) s2
    rcases hrest with ⟨err, -, e⟩ | ⟨-, e⟩ | ⟨note, err, w3, -, -, e⟩ | ⟨note, w3, hc, -, e⟩
    · rw [e] at h
      simp at h
    · rw [e] at h
      simp at h
    · rw [e] at h
      simp at h
    · rw [e] at h
      simp only [Option.some.injEq, Prod.mk.injEq, and_true] at h
      subst h
      obtain ⟨-, -, -, hval, id, -, hbody⟩ := hsome note (by rw [hc])
      refine ⟨{ initialContext opts with
          ID := id
          Filename := filepath.Base note.path
          FilenameStem := paths.FilenameStem note.path }, note.content, ?_, ?_, ?_, ?_⟩
      · rw [e]
        simp only [hlog, writes_append, hwr2, hwr]
        simp [Sys.start, writes]
      · rw [e]
        simp
      · rw [e]
        simp only [hlog, bodyRenders_append, hbody2, hbody]
        simp [Sys.start, bodyRenders]
      · rw [e]
        simp only [hlog]
        exact List.mem_append_left _ (List.mem_append_right _ hval)

/-- C6 on the scenario: the note is written once at `/notes/20230101-abcd.md`. -/
theorem Create_success_writes_once_witness :
    (Create Scenario.env Scenario.opts Scenario.loader
      (Sys.start (Scenario.world [] 0))).1 = some ("/notes/20230101-abcd.md", none) ∧
    ∃ context content,
      writes (Create Scenario.env Scenario.opts Scenario.loader
        (Sys.start (Scenario.world [] 0))).2.log =
          [("/notes/20230101-abcd.md", content)] ∧
      (Create Scenario.env Scenario.opts Scenario.loader
        (Sys.start (Scenario.world [] 0))).2.log.getLast? =
          some (Call.writeString "/notes/20230101-abcd.md" content none) ∧
      bodyRenders (Create Scenario.env Scenario.opts Scenario.loader
        (Sys.start (Scenario.world [] 0))).2.log = [(context, Except.ok content)] ∧
      Call.validatePath "/notes/20230101-abcd.md" true none ∈
        (Create Scenario.env Scenario.opts Scenario.loader
          (Sys.start (Scenario.world [] 0))).2.log :=
  ⟨by decide,
    Create_success_writes_once Scenario.env Scenario.opts Scenario.loader
      (Scenario.world [] 0) "/notes/20230101-abcd.md" (by decide)⟩

/-! ## C10: the body is rendered against the finalized context -/

/-- C10. Whenever `create` returns a note, there is no error and the body
template has been rendered exactly once, against the initial context
completed with the identifier generated last, the base name of the returned
path as `Filename` and its stem as `FilenameStem` (title, content, directory
and extra values being those of the initial context); the content of the note
is the string that render produced. If a body render fails, `create` returns
that error unchanged and no note. -/
theorem create_renders_body_once {σ ι : Type} (opts : CreateOpts ι)
    (deps : createDeps σ) (w : σ) :
    (∀ note, (create opts deps (Sys.start w)).1.1 = some note →
      (create opts deps (Sys.start w)).1.2 = none ∧
      ∃ id, (genIds (create opts deps (Sys.start w)).2.log).getLast? = some id ∧
        bodyRenders (create opts deps (Sys.start w)).2.log =
          [({ initialContext opts with
              ID := id
              Filename := filepath.Base note.path
              FilenameStem := paths.FilenameStem note.path },
            Except.ok note.content)]) ∧
    (∀ context err,
      (context, Except.error err) ∈ bodyRenders (create opts deps (Sys.start w)).2.log →
      (create opts deps (Sys.start w)).1 = (none, some err)) := by
  constructor
  · intro note hnote
    obtain ⟨new, hlog, -, hsome, -⟩ := create_outcome opts deps (Sys.start w)
    obtain ⟨hnone, -, -, -, id, hid, hbody⟩ := hsome note hnote
    have hlog' : (create opts deps (Sys.start w)).2.log = new := by
      rw [hlog]
      rfl
    exact ⟨hnone, id, by rw [hlog']; exact hid, by rw [hlog']; exact hbody⟩
  · intro context err hmem
    obtain ⟨new, hlog, -, hbody, -, -⟩ :=
      genPath_frame opts.Dir deps (initialContext opts) (Sys.start w)
    have hbody' : bodyRenders (genPath (initialContext opts) opts.Dir deps
        (Sys.start w)).2.log = [] := by
      rw [hlog]
      simpa [Sys.start] using hbody
    rcases create_cases opts deps (Sys.start w) with ⟨e, -, h⟩ | ⟨-, e, w', -, h⟩ |
      ⟨-, content, w', -, h⟩
    · rw [h, hbody'] at hmem
      simp at hmem
    · rw [h] at hmem
      simp only [bodyRenders_append, hbody', bodyRenders, List.nil_append,
        List.mem_singleton, Prod.mk.injEq, Except.error.injEq] at hmem
      rw [h, hmem.2]
    · rw [h] at hmem
      simp [hbody', bodyRenders] at hmem

/-- C10 on the scenario: the body of the note is rendered from the title and
the stem; with a body template that cannot be rendered, its error is returned
and no note. -/
theorem create_renders_body_once_witness :
    (create Scenario.opts Scenario.deps (Sys.start (Scenario.world [] 0))).1 =
      (some ⟨"/notes/20230101-abcd.md", "# My Note (20230101-abcd)"⟩, none) ∧
    bodyRenders (create Scenario.opts Scenario.deps
        (Sys.start (Scenario.world [] 0))).2.log =
      [({ initialContext Scenario.opts with
          ID := "abcd"
          Filename := "20230101-abcd.md"
          FilenameStem := "20230101-abcd" },
        Except.ok "# My Note (20230101-abcd)")] ∧
    (create Scenario.opts { Scenario.deps with bodyTemplate := Scenario.brokenTemplate }
      (Sys.start (Scenario.world [] 0))).1 =
      (none, some (Error.errorf "undefined field")) :=
  have hnote : (create Scenario.opts Scenario.deps
      (Sys.start (Scenario.world [] 0))).1.1 =
      some ⟨"/notes/20230101-abcd.md", "# My Note (20230101-abcd)"⟩ := by decide
  have h1 := (create_renders_body_once Scenario.opts Scenario.deps
    (Scenario.world [] 0)).1 _ hnote
  have h2 := (create_renders_body_once Scenario.opts
    { Scenario.deps with bodyTemplate := Scenario.brokenTemplate }
    (Scenario.world [] 0)).2
    { initialContext Scenario.opts with
      ID := "abcd"
      Filename := "20230101-abcd.md"
      FilenameStem := "20230101-abcd" }
    (Error.errorf "undefined field") (by decide)
  ⟨by decide, by decide, h2⟩

/-! ## C9: the filename fields -/

/-- The base name of a path is never empty. -/
theorem Base_ne_empty (path : String) : filepath.Base path ≠ "" := by
  unfold filepath.Base
  split
  · decide
  · simp only []
    split
    · decide
    · rename_i h
      intro e
      exact h (congrArg String.data e)

/-- What `filepath.Ext` has scanned and returns is a suffix of the path. -/
theorem extScan_suffix : ∀ (rev acc : List Char),
    filepath.extScan rev acc <:+ rev.reverse ++ acc := by
  intro rev
  induction rev with
  | nil =>
    intro acc
    exact List.nil_suffix
  | cons c rev ih =>
    intro acc
    unfold filepath.extScan
    split
    · exact List.nil_suffix
    · split
      · simp only [List.reverse_cons, List.append_assoc, List.singleton_append]
        exact List.suffix_append _ _
      · have := ih (c :: acc)
        simpa using this

/-- The scan of `filepath.Ext` returns the whole text exactly when the text
begins with a dot and holds no other dot and no separator. -/
theorem extScan_eq_all : ∀ (rev acc : List Char),
    filepath.extScan rev acc = rev.reverse ++ acc ∧ rev ≠ [] ↔
      ∃ t, rev.reverse = '.' :: t ∧ '.' ∉ t ∧ '/' ∉ t := by
  intro rev
  induction rev with
  | nil =>
    intro acc
    simp
  | cons c rev ih =>
    intro acc
    unfold filepath.extScan
    by_cases h1 : c = '/'
    · subst h1
      simp only [if_true, List.reverse_cons, List.append_assoc, List.singleton_append]
      constructor
      · rintro ⟨h, -⟩
        have := congrArg List.length h
        simp at this
        omega
      · rintro ⟨t, ht, -, hs⟩
        exfalso
        rcases List.eq_nil_or_concat rev.reverse with h | ⟨l, a, h⟩
        · rw [h] at ht
          simp at ht
        · rw [h] at ht
          simp only [List.concat_eq_append, List.append_assoc, List.singleton_append,
            List.cons_append] at ht
          cases l with
          | nil =>
            simp only [List.nil_append, List.cons.injEq] at ht
            exact hs (by rw [← ht.2]; simp)
          | cons x l =>
            simp only [List.cons_append, List.cons.injEq] at ht
            exact hs (by rw [← ht.2]; simp)
    · by_cases h2 : c = '.'
      · subst h2
        simp only [h1, if_false, if_true, List.reverse_cons, List.append_assoc,
          List.singleton_append]
        constructor
        · rintro ⟨h, -⟩
          have hlen := congrArg List.length h
          simp only [List.length_cons, List.length_append, List.length_reverse] at hlen
          have hrev : rev = [] := List.eq_nil_of_length_eq_zero (by omega)
          subst hrev
          exact ⟨[], by simp, by simp, by simp⟩
        · rintro ⟨t, ht, hd, -⟩
          cases hr : rev.reverse with
          | nil =>
            have : rev = [] := by simpa using hr
            subst this
            simp
          | cons x l =>
            exfalso
            rw [hr] at ht
            simp only [List.cons_append, List.cons.injEq] at ht
            exact hd (by rw [← ht.2]; simp)
      · simp only [h1, h2, if_false, List.reverse_cons, List.append_assoc,
          List.singleton_append]
        have ih' := ih (c :: acc)
        constructor
        · rintro ⟨h, -⟩
          by_cases hrev : rev = []
          · subst hrev
            have hlen := congrArg List.length h
            simp [filepath.extScan] at hlen
          · obtain ⟨t, ht, hd, hs⟩ := ih'.1 ⟨h, hrev⟩
            refine ⟨t ++ [c], by rw [ht]; rfl, ?_, ?_⟩
            · simp only [List.mem_append, List.mem_singleton, not_or]
              exact ⟨hd, fun e => h2 e.symm⟩
            · simp only [List.mem_append, List.mem_singleton, not_or]
              exact ⟨hs, fun e => h1 e.symm⟩
        · rintro ⟨t, ht, hd, hs⟩
          have hrev : rev ≠ [] := by
            intro e
            subst e
            simp only [List.reverse_nil, List.nil_append, List.cons.injEq] at ht
            exact h2 ht.1
          cases hr : rev.reverse with
          | nil =>
            exact absurd (by simpa using hr) hrev
          | cons x l =>
            rw [hr] at ht
            simp only [List.cons_append, List.cons.injEq] at ht
            obtain ⟨rfl, rfl⟩ := ht
            have hmem : ∀ a, a ∉ l ++ [c] → a ∉ l := fun a ha hl =>
              ha (List.mem_append_left _ hl)
            have := (ih'.2 ⟨l, hr, hmem _ hd, hmem _ hs⟩).1
            rw [hr] at this
            exact ⟨by simpa using this, by simp⟩

/-- The stem of a path is empty exactly when its base name begins with a dot
and holds no other dot and no separator: the whole base name is then its
extension. -/
theorem FilenameStem_eq_empty_iff (path : String) :
    paths.FilenameStem path = "" ↔
      ∃ t, (filepath.Base path).data = '.' :: t ∧ '.' ∉ t ∧ '/' ∉ t := by
  have hne : (filepath.Base path).data ≠ [] := by
    intro h
    apply Base_ne_empty path
    cases hb : filepath.Base path with
    | mk l =>
      rw [hb] at h
      simp only at h
      rw [h]
  have hsuf := extScan_suffix (filepath.Base path).data.reverse []
  simp only [List.reverse_reverse, List.append_nil] at hsuf
  have hall := extScan_eq_all (filepath.Base path).data.reverse []
  simp only [List.reverse_reverse, List.append_nil] at hall
  rw [← hall]
  have hstem : paths.FilenameStem path = "" ↔
      (filepath.Base path).data.length ≤
        (filepath.extScan (filepath.Base path).data.reverse []).length := by
    unfold paths.FilenameStem filepath.Ext
    simp only []
    constructor
    · intro h
      have h' := congrArg String.data h
      simp only [] at h'
      rcases List.take_eq_nil_iff.1 h' with h0 | h0
      · omega
      · exact absurd h0 hne
    · intro h
      have h0 : (filepath.Base path).data.length -
          (filepath.extScan (filepath.Base path).data.reverse []).length = 0 := by omega
      rw [h0]
      rfl
  rw [hstem]
  constructor
  · intro h
    exact ⟨hsuf.eq_of_length_le h, by simpa using hne⟩
  · rintro ⟨h, -⟩
    rw [h]

/-- C9, as amended. The `Filename` and `FilenameStem` fields are both empty in
the context built at the start of `create`. After every successful resolution
by `genPath` both are set from the returned path, `Filename` to its base name
and `FilenameStem` to its stem; `Filename` is non-empty for every rendered
filename, and `FilenameStem` is empty exactly when `Filename` begins with a
dot and holds no other dot and no separator, the whole of it being the
extension. -/
theorem genPath_filename_fields {σ ι : Type} (opts : CreateOpts ι) (dir : Dir ι)
    (deps : createDeps σ) (context : renderContext) (s : Sys σ) :
    (initialContext opts).Filename = "" ∧ (initialContext opts).FilenameStem = "" ∧
    ((genPath context dir deps s).1.err = none →
      (genPath context dir deps s).1.context.Filename =
        filepath.Base (genPath context dir deps s).1.path ∧
      (genPath context dir deps s).1.context.FilenameStem =
        paths.FilenameStem (genPath context dir deps s).1.path ∧
      (genPath context dir deps s).1.context.Filename ≠ "" ∧
      ((genPath context dir deps s).1.context.FilenameStem = "" ↔
        ∃ t, (genPath context dir deps s).1.context.Filename.data = '.' :: t ∧
          '.' ∉ t ∧ '/' ∉ t)) := by
  refine ⟨rfl, rfl, ?_⟩
  intro hnone
  obtain ⟨new, -, hok, -⟩ := genPathLoop_outcome dir deps 50 "" context s
  obtain ⟨-, -, -, id, -, hctx⟩ := hok hnone
  have hctx' : (genPath context dir deps s).1.context =
      { context with
        ID := id
        Filename := filepath.Base (genPath context dir deps s).1.path
        FilenameStem := paths.FilenameStem (genPath context dir deps s).1.path } := hctx
  have hF : (genPath context dir deps s).1.context.Filename =
      filepath.Base (genPath context dir deps s).1.path := by
    rw [hctx']
  have hS : (genPath context dir deps s).1.context.FilenameStem =
      paths.FilenameStem (genPath context dir deps s).1.path := by
    rw [hctx']
  refine ⟨hF, hS, ?_, ?_⟩
  · rw [hF]
    exact Base_ne_empty _
  · rw [hS, hF]
    exact FilenameStem_eq_empty_iff _

/-- C9 on the scenario: both fields are populated for the first free path. -/
theorem genPath_filename_fields_witness :
    (genPath Scenario.context Scenario.dir Scenario.deps
      (Sys.start (Scenario.world [] 0))).1.context.Filename = "20230101-abcd.md" ∧
    (genPath Scenario.context Scenario.dir Scenario.deps
      (Sys.start (Scenario.world [] 0))).1.context.FilenameStem = "20230101-abcd" ∧
    (genPath Scenario.context Scenario.dir Scenario.deps
      (Sys.start (Scenario.world [] 0))).1.context.Filename ≠ "" :=
  have h := (genPath_filename_fields Scenario.opts Scenario.dir Scenario.deps
    Scenario.context (Sys.start (Scenario.world [] 0))).2.2 (by decide)
  ⟨h.1.trans (by decide), h.2.1.trans (by decide), h.2.2.1⟩

/-- C9 as stated fails when the filename template renders the empty string:
the resolution succeeds with the path `/notes/.md`, `Filename` is `.md` and
`FilenameStem` is empty. -/
theorem genPath_empty_name_stem_empty :
    (genPath Scenario.context Scenario.dir
      { Scenario.deps with filenameTemplate := Scenario.emptyTemplate }
      (Sys.start (Scenario.world [] 0))).1.err = none ∧
    (genPath Scenario.context Scenario.dir
      { Scenario.deps with filenameTemplate := Scenario.emptyTemplate }
      (Sys.start (Scenario.world [] 0))).1.path = "/notes/.md" ∧
    (genPath Scenario.context Scenario.dir
      { Scenario.deps with filenameTemplate := Scenario.emptyTemplate }
      (Sys.start (Scenario.world [] 0))).1.context.Filename = ".md" ∧
    (genPath Scenario.context Scenario.dir
      { Scenario.deps with filenameTemplate := Scenario.emptyTemplate }
      (Sys.start (Scenario.world [] 0))).1.context.FilenameStem = "" := by
  decide

/-- C3 on the scenario: an empty title gives the default title `Untitled`, the
title `My Note` is kept. -/
theorem create_context_title_content_witness :
    (initialContext { Scenario.opts with Title := some "" }).Title = "Untitled" ∧
    (initialContext Scenario.opts).Title = "My Note" ∧
    (∀ c ∈ filenameRenders
        (create Scenario.opts Scenario.deps (Sys.start (Scenario.world [] 0))).2.log,
      c.Title = (initialContext Scenario.opts).Title ∧
      c.Content = (initialContext Scenario.opts).Content) :=
  ⟨(create_context_title_content { Scenario.opts with Title := some "" } Scenario.deps
      (Scenario.world [] 0)).1 (Or.inr rfl),
    (create_context_title_content Scenario.opts Scenario.deps
      (Scenario.world [] 0)).2.1 "My Note" rfl (by decide),
    (create_context_title_content Scenario.opts Scenario.deps
      (Scenario.world [] 0)).2.2.2.2.1⟩

/-! ## C17: what the filename template sees -/

/-- In a run of the loop, the contexts given to the filename template are, in
order, the context of the loop with only the identifier replaced by the
identifiers generated. -/
theorem genPathLoop_renders {σ ι : Type} (dir : Dir ι) (deps : createDeps σ) :
    ∀ n path c s, ∃ new,
      (genPathLoop dir deps n path c s).2.log = s.log ++ new ∧
      filenameRenders new = (genIds new).map (fun id => { c with ID := id }) := by
  refine genPathLoop_rule dir deps
    (fun _ _ c s r => ∃ new, r.2.log = s.log ++ new ∧
      filenameRenders new = (genIds new).map (fun id => { c with ID := id })) ?_ ?_ ?_ ?_ ?_
  · intro path c s
    exact ⟨[], by simp, rfl⟩
  · intro n path c s id w1 err w2 _ _
    exact ⟨_, rfl, rfl⟩
  · intro n path c s id w1 name w2 valid err w3 _ _ _
    exact ⟨_, rfl, rfl⟩
  · intro n path c s id w1 name w2 w3 _ _ _
    exact ⟨_, rfl, rfl⟩
  · intro n path c s id w1 name w2 w3 r _ _ _ ih
    obtain ⟨new, hlog, hren⟩ := ih
    refine ⟨[Call.genId id, Call.renderFilename { c with ID := id } (Except.ok name),
      Call.validatePath (candidatePath dir name) false none] ++ new,
      by rw [hlog, List.append_assoc], ?_⟩
    rw [filenameRenders_append, genIds_append, List.map_append, hren]
    rfl

/-- C17. On every attempt of `genPath` the context passed to the filename
template is the context `genPath` was given with only `ID` replaced, by the
identifier the generator returned on that attempt: the contexts rendered are,
in order, the input context with the identifiers generated. The context
returned has the title, content, directory and extra values of the input, so
that on success it differs from it only in `ID`, `Filename` and
`FilenameStem`. -/
theorem genPath_context_frame {σ ι : Type} (dir : Dir ι) (deps : createDeps σ)
    (context : renderContext) (w : σ) :
    filenameRenders (genPath context dir deps (Sys.start w)).2.log =
      (genIds (genPath context dir deps (Sys.start w)).2.log).map
        (fun id => { context with ID := id }) ∧
    sameInputs context (genPath context dir deps (Sys.start w)).1.context := by
  obtain ⟨new, hlog, hren⟩ := genPathLoop_renders dir deps 50 "" context (Sys.start w)
  obtain ⟨new', -, -, -, -, hsame⟩ := genPath_frame dir deps context (Sys.start w)
  have hlog' : (genPath context dir deps (Sys.start w)).2.log = new := by
    have : (genPath context dir deps (Sys.start w)).2.log = (Sys.start w).log ++ new := hlog
    rw [this]
    rfl
  rw [hlog']
  exact ⟨hren, hsame⟩

/-! ## C12: every rendered filename is validated -/

/-- In a run of the loop, the paths given to the validator are, in order, the
candidate paths of the filenames rendered. -/
theorem genPathLoop_validations {σ ι : Type} (dir : Dir ι) (deps : createDeps σ) :
    ∀ n path c s, ∃ new,
      (genPathLoop dir deps n path c s).2.log = s.log ++ new ∧
      validations new = (renderedNames new).map (candidatePath dir) := by
  refine genPathLoop_rule dir deps
    (fun _ _ _ s r => ∃ new, r.2.log = s.log ++ new ∧
      validations new = (renderedNames new).map (candidatePath dir)) ?_ ?_ ?_ ?_ ?_
  · intro path c s
    exact ⟨[], by simp, rfl⟩
  · intro n path c s id w1 err w2 _ _
    exact ⟨_, rfl, rfl⟩
  · intro n path c s id w1 name w2 valid err w3 _ _ _
    exact ⟨_, rfl, rfl⟩
  · intro n path c s id w1 name w2 w3 _ _ _
    exact ⟨_, rfl, rfl⟩
  · intro n path c s id w1 name w2 w3 r _ _ _ ih
    obtain ⟨new, hlog, hval⟩ := ih
    refine ⟨[Call.genId id, Call.renderFilename { c with ID := id } (Except.ok name),
      Call.validatePath (candidatePath dir name) false none] ++ new,
      by rw [hlog, List.append_assoc], ?_⟩
    have e : ∀ l, renderedNames ([Call.genId id,
        Call.renderFilename { c with ID := id } (Except.ok name),
        Call.validatePath (candidatePath dir name) false none] ++ l) =
        name :: renderedNames l := fun l => rfl
    rw [validations_append, hval, e]
    rfl

/-- C12. In every run of `genPath`, the paths handed to the validator are, in
order, the joins of the base path of the directory with each string the
filename template rendered followed by `.` and the configured extension: every
rendered string, whatever it is, gives a candidate that is validated, none is
rejected or skipped. -/
theorem genPath_validates_every_candidate {σ ι : Type} (dir : Dir ι)
    (deps : createDeps σ) (context : renderContext) (w : σ) :
    validations (genPath context dir deps (Sys.start w)).2.log =
      (renderedNames (genPath context dir deps (Sys.start w)).2.log).map
        (fun name => filepath.Join [dir.Path, name ++ "." ++ dir.Config.Extension]) := by
  obtain ⟨new, hlog, hval⟩ := genPathLoop_validations dir deps 50 "" context (Sys.start w)
  have hlog' : (genPath context dir deps (Sys.start w)).2.log = new := by
    have : (genPath context dir deps (Sys.start w)).2.log = (Sys.start w).log ++ new := hlog
    rw [this]
    rfl
  rw [hlog']
  exact hval

/-! ## C18: how many calls a run makes -/

/-- With calls before it, a non-empty log ends as it ends by itself. -/
theorem endsWithRenderError_append (l₁ l₂ : List Call) (h : l₂ ≠ []) :
    endsWithRenderError (l₁ ++ l₂) = endsWithRenderError l₂ := by
  unfold endsWithRenderError
  rw [List.getLast?_append_of_ne_nil _ h]

/-- The counts of the calls of a run of the loop with `n` iterations left. -/
theorem genPathLoop_counts {σ ι : Type} (dir : Dir ι) (deps : createDeps σ) :
    ∀ n path c s, ∃ new,
      (genPathLoop dir deps n path c s).2.log = s.log ++ new ∧
      (genIds new).length ≤ n ∧ (0 < n → 0 < (genIds new).length) ∧
      (new = [] → n = 0) ∧
      (filenameRenders new).length = (genIds new).length ∧
      (endsWithRenderError new = true →
        (validations new).length + 1 = (genIds new).length) ∧
      (endsWithRenderError new = false →
        (validations new).length = (genIds new).length) := by
  refine genPathLoop_rule dir deps
    (fun n _ _ s r => ∃ new, r.2.log = s.log ++ new ∧
      (genIds new).length ≤ n ∧ (0 < n → 0 < (genIds new).length) ∧
      (new = [] → n = 0) ∧
      (filenameRenders new).length = (genIds new).length ∧
      (endsWithRenderError new = true →
        (validations new).length + 1 = (genIds new).length) ∧
      (endsWithRenderError new = false →
        (validations new).length = (genIds new).length)) ?_ ?_ ?_ ?_ ?_
  · intro path c s
    exact ⟨[], by simp, by simp [genIds], by simp, by simp, rfl, by simp [endsWithRenderError],
      fun _ => rfl⟩
  · intro n path c s id w1 err w2 _ _
    exact ⟨_, rfl, by simp [genIds], by simp [genIds], by simp, rfl, fun _ => rfl,
      by simp [endsWithRenderError, Call.isRenderError]⟩
  · intro n path c s id w1 name w2 valid err w3 _ _ _
    exact ⟨_, rfl, by simp [genIds], by simp [genIds], by simp, rfl,
      by simp [endsWithRenderError, Call.isRenderError], fun _ => rfl⟩
  · intro n path c s id w1 name w2 w3 _ _ _
    exact ⟨_, rfl, by simp [genIds], by simp [genIds], by simp, rfl,
      by simp [endsWithRenderError, Call.isRenderError], fun _ => rfl⟩
  · intro n path c s id w1 name w2 w3 r _ _ _ ih
    obtain ⟨new, hlog, hle, hpos, hnil, hren, hyes, hno⟩ := ih
    have hg : ∀ l, genIds ([Call.genId id,
        Call.renderFilename { c with ID := id } (Except.ok name),
        Call.validatePath (candidatePath dir name) false none] ++ l) = id :: genIds l :=
      fun l => rfl
    have hr : ∀ l, filenameRenders ([Call.genId id,
        Call.renderFilename { c with ID := id } (Except.ok name),
        Call.validatePath (candidatePath dir name) false none] ++ l) =
        { c with ID := id } :: filenameRenders l := fun l => rfl
    have hv : ∀ l, validations ([Call.genId id,
        Call.renderFilename { c with ID := id } (Except.ok name),
        Call.validatePath (candidatePath dir name) false none] ++ l) =
        candidatePath dir name :: validations l := fun l => rfl
    refine ⟨[Call.genId id, Call.renderFilename { c with ID := id } (Except.ok name),
      Call.validatePath (candidatePath dir name) false none] ++ new,
      by rw [hlog, List.append_assoc], ?_, ?_, ?_, ?_, ?_, ?_⟩
    · rw [hg]
      simp only [List.length_cons]
      omega
    · intro _
      rw [hg]
      simp
    · intro h
      simp at h
    · rw [hg, hr]
      simp only [List.length_cons, hren]
    · intro hend
      by_cases hnew : new = []
      · subst hnew
        simp [endsWithRenderError, Call.isRenderError] at hend
      · rw [endsWithRenderError_append _ _ hnew] at hend
        rw [hg, hv]
        simp only [List.length_cons]
        have := hyes hend
        omega
    · intro hend
      by_cases hnew : new = []
      · subst hnew
        rfl
      · rw [endsWithRenderError_append _ _ hnew] at hend
        rw [hg, hv]
        simp only [List.length_cons]
        have := hno hend
        omega

/-- C18. For every generator, filename renderer and validator, whatever they
return, `genPath` (a total function: every run ends) has called the
generator at least once and at most 50 times; it has rendered the filename as
many times as it has called the generator; and it has called the validator as
many times, or once less exactly when the run ended with a filename render
that failed. -/
theorem genPath_call_counts {σ ι : Type} (dir : Dir ι) (deps : createDeps σ)
    (context : renderContext) (w : σ) :
    1 ≤ (genIds (genPath context dir deps (Sys.start w)).2.log).length ∧
    (genIds (genPath context dir deps (Sys.start w)).2.log).length ≤ 50 ∧
    (filenameRenders (genPath context dir deps (Sys.start w)).2.log).length =
      (genIds (genPath context dir deps (Sys.start w)).2.log).length ∧
    (endsWithRenderError (genPath context dir deps (Sys.start w)).2.log = true →
      (validations (genPath context dir deps (Sys.start w)).2.log).length + 1 =
        (genIds (genPath context dir deps (Sys.start w)).2.log).length) ∧
    (endsWithRenderError (genPath context dir deps (Sys.start w)).2.log = false →
      (validations (genPath context dir deps (Sys.start w)).2.log).length =
        (genIds (genPath context dir deps (Sys.start w)).2.log).length) := by
  obtain ⟨new, hlog, hle, hpos, -, hren, hyes, hno⟩ :=
    genPathLoop_counts dir deps 50 "" context (Sys.start w)
  have hlog' : (genPath context dir deps (Sys.start w)).2.log = new := by
    have : (genPath context dir deps (Sys.start w)).2.log = (Sys.start w).log ++ new := hlog
    rw [this]
    rfl
  rw [hlog']
  exact ⟨hpos (by decide), hle, hren, hyes, hno⟩

/-- C18 on the scenario, with a filename template that cannot be rendered and
with the template of the scenario: one generator call and no validation in the
first run, one generator call and one validation in the second. -/
theorem genPath_call_counts_witness :
    endsWithRenderError (genPath Scenario.context Scenario.dir
      { Scenario.deps with filenameTemplate := Scenario.brokenTemplate }
      (Sys.start (Scenario.world [] 0))).2.log = true ∧
    (validations (genPath Scenario.context Scenario.dir
      { Scenario.deps with filenameTemplate := Scenario.brokenTemplate }
      (Sys.start (Scenario.world [] 0))).2.log).length + 1 =
      (genIds (genPath Scenario.context Scenario.dir
        { Scenario.deps with filenameTemplate := Scenario.brokenTemplate }
        (Sys.start (Scenario.world [] 0))).2.log).length ∧
    (validations (genPath Scenario.context Scenario.dir Scenario.deps
      (Sys.start (Scenario.world [] 0))).2.log).length =
      (genIds (genPath Scenario.context Scenario.dir Scenario.deps
        (Sys.start (Scenario.world [] 0))).2.log).length :=
  have h1 : endsWithRenderError (genPath Scenario.context Scenario.dir
      { Scenario.deps with filenameTemplate := Scenario.brokenTemplate }
      (Sys.start (Scenario.world [] 0))).2.log = true := by decide
  ⟨h1,
    (genPath_call_counts Scenario.dir
      { Scenario.deps with filenameTemplate := Scenario.brokenTemplate }
      Scenario.context (Scenario.world [] 0)).2.2.2.1 h1,
    (genPath_call_counts Scenario.dir Scenario.deps Scenario.context
      (Scenario.world [] 0)).2.2.2.2 (by decide)⟩

/-! ## C16: the context returned on failure -/

/-- When the loop fails, the context returned is the context of the loop with
the identifier generated last, or the context of the loop itself when no
iteration was left. -/
theorem genPathLoop_failure_context {σ ι : Type} (dir : Dir ι) (deps : createDeps σ) :
    ∀ n path c s, ∃ new,
      (genPathLoop dir deps n path c s).2.log = s.log ++ new ∧
      ((genPathLoop dir deps n path c s).1.err ≠ none →
        (n = 0 ∧ new = [] ∧ (genPathLoop dir deps n path c s).1.context = c) ∨
        ∃ id, (genIds new).getLast? = some id ∧
          (genPathLoop dir deps n path c s).1.context = { c with ID := id }) := by
  refine genPathLoop_rule dir deps
    (fun n _ c s r => ∃ new, r.2.log = s.log ++ new ∧
      (r.1.err ≠ none →
        (n = 0 ∧ new = [] ∧ r.1.context = c) ∨
        ∃ id, (genIds new).getLast? = some id ∧ r.1.context = { c with ID := id }))
    ?_ ?_ ?_ ?_ ?_
  · intro path c s
    exact ⟨[], by simp, fun _ => Or.inl ⟨rfl, rfl, rfl⟩⟩
  · intro n path c s id w1 err w2 _ _
    exact ⟨_, rfl, fun _ => Or.inr ⟨id, rfl, rfl⟩⟩
  · intro n path c s id w1 name w2 valid err w3 _ _ _
    exact ⟨_, rfl, fun _ => Or.inr ⟨id, rfl, rfl⟩⟩
  · intro n path c s id w1 name w2 w3 _ _ _
    exact ⟨_, rfl, fun h => absurd rfl h⟩
  · intro n path c s id w1 name w2 w3 r _ _ _ ih
    obtain ⟨new, hlog, hfail⟩ := ih
    have hg : ∀ l, genIds ([Call.genId id,
        Call.renderFilename { c with ID := id } (Except.ok name),
        Call.validatePath (candidatePath dir name) false none] ++ l) = id :: genIds l :=
      fun l => rfl
    refine ⟨[Call.genId id, Call.renderFilename { c with ID := id } (Except.ok name),
      Call.validatePath (candidatePath dir name) false none] ++ new,
      by rw [hlog, List.append_assoc], ?_⟩
    intro herr
    right
    rcases hfail herr with ⟨-, hnew, hctx⟩ | ⟨id', hid', hctx⟩
    · subst hnew
      exact ⟨id, rfl, hctx⟩
    · refine ⟨id', ?_, hctx⟩
      rw [hg, List.getLast?_cons, hid']
      rfl

/-- C16, as amended. Whenever `genPath` does not succeed (filename render
error, validator error, or exhaustion of the 50 attempts), the path returned
is empty and the context returned has the `Filename` and `FilenameStem` of
the context given, hence empty ones if they were empty on entry; its `ID` is
the identifier generated last, on the failed or last colliding attempt, which
stays in the context. -/
theorem genPath_failure_context {σ ι : Type} (dir : Dir ι) (deps : createDeps σ)
    (context : renderContext) (w : σ)
    (h : (genPath context dir deps (Sys.start w)).1.err ≠ none) :
    (genPath context dir deps (Sys.start w)).1.path = "" ∧
    (genPath context dir deps (Sys.start w)).1.context.Filename = context.Filename ∧
    (genPath context dir deps (Sys.start w)).1.context.FilenameStem =
      context.FilenameStem ∧
    ∃ id, (genIds (genPath context dir deps (Sys.start w)).2.log).getLast? = some id ∧
      (genPath context dir deps (Sys.start w)).1.context.ID = id := by
  obtain ⟨new, hlog, hfail⟩ :=
    genPathLoop_failure_context dir deps 50 "" context (Sys.start w)
  obtain ⟨new', -, -, hempty⟩ := genPathLoop_outcome dir deps 50 "" context (Sys.start w)
  have hlog' : (genPath context dir deps (Sys.start w)).2.log = new := by
    have : (genPath context dir deps (Sys.start w)).2.log = (Sys.start w).log ++ new := hlog
    rw [this]
    rfl
  rcases hfail h with ⟨h0, -⟩ | ⟨id, hid, hctx⟩
  · exact absurd h0 (by decide)
  · have hctx' : (genPath context dir deps (Sys.start w)).1.context =
        { context with ID := id } := hctx
    refine ⟨hempty h, ?_, ?_, id, ?_, ?_⟩
    · rw [hctx']
    · rw [hctx']
    · rw [hlog']
      exact hid
    · rw [hctx']

/-- C16 on the scenario with a validator for which every path is occupied. -/
theorem genPath_failure_context_witness :
    (genPath Scenario.context Scenario.dir
      { Scenario.deps with validatePath := Scenario.allOccupied }
      (Sys.start (Scenario.world [] 0))).1.context.Filename = "" ∧
    (genPath Scenario.context Scenario.dir
      { Scenario.deps with validatePath := Scenario.allOccupied }
      (Sys.start (Scenario.world [] 0))).1.context.FilenameStem = "" ∧
    ∃ id, (genIds (genPath Scenario.context Scenario.dir
        { Scenario.deps with validatePath := Scenario.allOccupied }
        (Sys.start (Scenario.world [] 0))).2.log).getLast? = some id ∧
      (genPath Scenario.context Scenario.dir
        { Scenario.deps with validatePath := Scenario.allOccupied }
        (Sys.start (Scenario.world [] 0))).1.context.ID = id :=
  (genPath_failure_context Scenario.dir
    { Scenario.deps with validatePath := Scenario.allOccupied }
    Scenario.context (Scenario.world [] 0) (by decide)).2

/-- C16 as stated fails on the scenario with a filename template that cannot
be rendered: `genPath` fails on the first attempt and the context returned
still holds the identifier `abcd` generated on that attempt; and with every
path occupied the context returned after 50 attempts holds the identifier
`ijkl` of the last colliding attempt. -/
theorem genPath_failure_keeps_identifier :
    (genPath Scenario.context Scenario.dir
      { Scenario.deps with filenameTemplate := Scenario.brokenTemplate }
      (Sys.start (Scenario.world [] 0))).1.err =
        some (Error.errorf "undefined field") ∧
    Scenario.context.ID = "" ∧
    (genPath Scenario.context Scenario.dir
      { Scenario.deps with filenameTemplate := Scenario.brokenTemplate }
      (Sys.start (Scenario.world [] 0))).1.context.ID = "abcd" ∧
    (genPath Scenario.context Scenario.dir
      { Scenario.deps with validatePath := Scenario.allOccupied }
      (Sys.start (Scenario.world [] 0))).1.context.ID = "ijkl" := by
  decide

/-! ## C11: no body template configured -/

@[simp] theorem fileLoads_append (l₁ l₂ : List Call) :
    fileLoads (l₁ ++ l₂) = fileLoads l₁ ++ fileLoads l₂ := by
  induction l₁ with
  | nil => rfl
  | cons c l ih => cases c <;> simp [fileLoads, ih]

/-- The loop loads no file. -/
theorem genPathLoop_fileLoads {σ ι : Type} (dir : Dir ι) (deps : createDeps σ) :
    ∀ n path c s, ∃ new,
      (genPathLoop dir deps n path c s).2.log = s.log ++ new ∧ fileLoads new = [] := by
  refine genPathLoop_rule dir deps
    (fun _ _ _ s r => ∃ new, r.2.log = s.log ++ new ∧ fileLoads new = []) ?_ ?_ ?_ ?_ ?_
  · intro path c s
    exact ⟨[], by simp, rfl⟩
  · intro n path c s id w1 err w2 _ _
    exact ⟨_, rfl, rfl⟩
  · intro n path c s id w1 name w2 valid err w3 _ _ _
    exact ⟨_, rfl, rfl⟩
  · intro n path c s id w1 name w2 w3 _ _ _
    exact ⟨_, rfl, rfl⟩
  · intro n path c s id w1 name w2 w3 r _ _ _ ih
    obtain ⟨new, hlog, hfl⟩ := ih
    exact ⟨[Call.genId id, Call.renderFilename { c with ID := id } (Except.ok name),
      Call.validatePath (candidatePath dir name) false none] ++ new,
      by rw [hlog, List.append_assoc], by simp [fileLoads, hfl]⟩

/-- With the null renderer as body template, `create` loads no file, writes
nothing, every body render gives the empty string, and the content of a note
returned is the empty string. -/
theorem create_null_renderer {σ ι : Type} (opts : CreateOpts ι) (deps : createDeps σ)
    (s : Sys σ) (hnull : deps.bodyTemplate = NullRenderer) : ∃ new,
      (create opts deps s).2.log = s.log ++ new ∧ fileLoads new = [] ∧ writes new = [] ∧
      (∀ b ∈ bodyRenders new, b.2 = Except.ok "") ∧
      (∀ note, (create opts deps s).1.1 = some note → note.content = "") := by
  obtain ⟨new, hlog, hfl⟩ := genPathLoop_fileLoads opts.Dir deps 50 "" (initialContext opts) s
  obtain ⟨new', hlog', -, hbody, hwr, -⟩ :=
    genPath_frame opts.Dir deps (initialContext opts) s
  have hnew : new' = new := by
    have : s.log ++ new' = s.log ++ new := by
      rw [← hlog', ← hlog]
      rfl
    exact List.append_cancel_left this
  subst hnew
  rcases create_cases opts deps s with ⟨err, -, h⟩ | ⟨-, err, w', hr, -⟩ |
    ⟨-, content, w', hr, h⟩
  · refine ⟨new', by rw [h, hlog'], hfl, hwr, ?_, ?_⟩
    · intro b hb
      rw [hbody] at hb
      simp at hb
    · intro note hnote
      rw [h] at hnote
      simp at hnote
  · rw [hnull] at hr
    simp [NullRenderer] at hr
  · rw [hnull] at hr
    simp only [NullRenderer, Prod.mk.injEq, Except.ok.injEq] at hr
    obtain ⟨hcontent, -⟩ := hr
    subst hcontent
    refine ⟨new' ++ [Call.renderBody
        (genPath (initialContext opts) opts.Dir deps s).1.context (Except.ok "")],
      by rw [h, hlog', List.append_assoc], by simp [hfl, fileLoads],
      by simp [hwr, writes], ?_, ?_⟩
    · intro b hb
      simp only [bodyRenders_append, hbody, bodyRenders, List.nil_append,
        List.mem_singleton] at hb
      rw [hb]
    · intro note hnote
      rw [h] at hnote
      simp only [Option.some.injEq] at hnote
      rw [← hnote]

/-- C11. When the body template path of the directory is unset or empty,
`Create` never calls `LoadFile` of the loader; the body is rendered by the
null renderer, every body render giving the empty string; and on success the
only write is that of the empty string at the path returned, whatever the
title, the content and the extra values are. -/
theorem Create_without_body_template {σ ι : Type} (env : Env σ ι) (opts : CreateOpts ι)
    (templateLoader : Loader σ) (w : σ)
    (h : opt.Unwrap opts.Dir.Config.BodyTemplatePath = "") :
    fileLoads (Create env opts templateLoader (Sys.start w)).2.log = [] ∧
    (∀ b ∈ bodyRenders (Create env opts templateLoader (Sys.start w)).2.log,
      b.2 = Except.ok "") ∧
    (∀ path, (Create env opts templateLoader (Sys.start w)).1 = some (path, none) →
      writes (Create env opts templateLoader (Sys.start w)).2.log = [(path, "")]) := by
  rcases Create_cases env opts templateLoader (Sys.start w) with
    ⟨err, w1, -, e⟩ | ⟨ft, w1, err, w2, -, hne, -, -⟩ | ⟨ft, w1, bt, s2, -, hb, hrest⟩
  · rw [e]
    refine ⟨rfl, ?_, ?_⟩
    · intro b hb
      simp [Sys.start, bodyRenders] at hb
    · intro path hp
      simp at hp
  · exact absurd h hne
  · rcases hb with ⟨-, hbt, hs2⟩ | ⟨hne, -⟩
    · subst hbt
      subst hs2
      obtain ⟨new, hlog, hfl, hwr, hbody, hcontent⟩ :=
        create_null_renderer opts (depsOf env opts ft NullRenderer)
          ⟨w1, (Sys.start w).log ++ [Call.load opts.Dir.Config.FilenameTemplate none]⟩ rfl
      rcases hrest with ⟨err, -, e⟩ | ⟨-, e⟩ | ⟨note, err, w3, -, -, e⟩ |
        ⟨note, w3, hc, -, e⟩
      · rw [e, hlog]
        refine ⟨by simp [Sys.start, fileLoads, hfl], ?_, ?_⟩
        · intro b hb
          simp only [bodyRenders_append, Sys.start, List.nil_append, bodyRenders,
            List.mem_append, List.not_mem_nil, false_or] at hb
          exact hbody b hb
        · intro path hp
          simp at hp
      · rw [e, hlog]
        refine ⟨by simp [Sys.start, fileLoads, hfl], ?_, ?_⟩
        · intro b hb
          simp only [bodyRenders_append, Sys.start, List.nil_append, bodyRenders,
            List.mem_append, List.not_mem_nil, false_or] at hb
          exact hbody b hb
        · intro path hp
          simp at hp
      · rw [e, hlog]
        refine ⟨by simp [Sys.start, fileLoads, hfl], ?_, ?_⟩
        · intro b hb
          rw [bodyRenders_append, bodyRenders_append] at hb
          simp only [Sys.start, List.nil_append, bodyRenders, List.append_nil] at hb
          exact hbody b hb
        · intro path hp
          simp at hp
      · rw [e, hlog]
        refine ⟨by simp [Sys.start, fileLoads, hfl], ?_, ?_⟩
        · intro b hb
          rw [bodyRenders_append, bodyRenders_append] at hb
          simp only [Sys.start, List.nil_append, bodyRenders, List.append_nil] at hb
          exact hbody b hb
        · intro path hp
          simp only [Option.some.injEq, Prod.mk.injEq, and_true] at hp
          subst hp
          have hc0 := hcontent note (by rw [hc])
          simp [Sys.start, writes, hwr, hc0]
    · exact absurd h hne

/-- C11 on the scenario, the directory having no body template: the note is
written empty at `/notes/20230101-abcd.md` and no file is loaded. -/
theorem Create_without_body_template_witness :
    fileLoads (Create Scenario.env { Scenario.opts with Dir := Scenario.dir }
      Scenario.loader (Sys.start (Scenario.world [] 0))).2.log = [] ∧
    writes (Create Scenario.env { Scenario.opts with Dir := Scenario.dir }
      Scenario.loader (Sys.start (Scenario.world [] 0))).2.log =
        [("/notes/20230101-abcd.md", "")] :=
  have h := Create_without_body_template Scenario.env
    { Scenario.opts with Dir := Scenario.dir } Scenario.loader (Scenario.world [] 0) rfl
  ⟨h.1, h.2.2 "/notes/20230101-abcd.md" (by decide)⟩

/-! ## Joining a directory and a filename -/

/-- A text splits into at least one element. -/
theorem splitSep_ne_nil (l : List Char) : filepath.splitSep l ≠ [] := by
  cases l with
  | nil => simp [filepath.splitSep]
  | cons c cs =>
    unfold filepath.splitSep
    split
    · simp
    · split <;> simp

/-- A text without separator is one element. -/
theorem splitSep_of_no_sep (e : List Char) (h : '/' ∉ e) : filepath.splitSep e = [e] := by
  induction e with
  | nil => rfl
  | cons c cs ih =>
    have hc : c ≠ '/' := fun hc => h (by simp [hc])
    have hcs : '/' ∉ cs := fun hcs => h (List.mem_cons_of_mem _ hcs)
    unfold filepath.splitSep
    rw [if_neg hc, ih hcs]

/-- A character other than the separator extends the first element. -/
theorem splitSep_cons_of_ne (c : Char) (cs e : List Char) (es : List (List Char))
    (hc : c ≠ '/') (h : filepath.splitSep cs = e :: es) :
    filepath.splitSep (c :: cs) = (c :: e) :: es := by
  rw [filepath.splitSep, if_neg hc, h]

/-- The elements of two texts joined by a separator are those of the first
followed by those of the second. -/
theorem splitSep_append (a b : List Char) :
    filepath.splitSep (a ++ '/' :: b) = filepath.splitSep a ++ filepath.splitSep b := by
  induction a with
  | nil => simp [filepath.splitSep]
  | cons c cs ih =>
    by_cases hc : c = '/'
    · subst hc
      simp [filepath.splitSep, ih]
    · have hne := splitSep_ne_nil cs
      cases hsp : filepath.splitSep cs with
      | nil => exact absurd hsp hne
      | cons e es =>
        rw [List.cons_append,
          splitSep_cons_of_ne c (cs ++ '/' :: b) e (es ++ filepath.splitSep b) hc
            (by rw [ih, hsp]; rfl),
          splitSep_cons_of_ne c cs e es hc hsp]
        rfl

/-- The scan of `filepath.Clean` keeps a name. -/
theorem cleanStep_name (rooted : Bool) (out : List (List Char)) (e : List Char)
    (h : IsName e) : filepath.cleanStep rooted out e = e :: out := by
  obtain ⟨h1, h2, h3, -⟩ := h
  simp [filepath.cleanStep, h1, h2, h3]

/-- Joining elements, the last one apart. -/
theorem joinSep_concat (ys : List (List Char)) (e : List Char) :
    filepath.joinSep (ys ++ [e]) =
      if ys = [] then e else filepath.joinSep ys ++ '/' :: e := by
  induction ys with
  | nil => rfl
  | cons y ys ih =>
    cases ys with
    | nil => simp [filepath.joinSep]
    | cons z zs =>
      simp only [List.cons_append] at ih ⊢
      simp only [filepath.joinSep, ih]
      simp

/-- Joined elements of which the last is not empty are not empty. -/
theorem joinSep_concat_ne_nil (ys : List (List Char)) (e : List Char) (he : e ≠ []) :
    filepath.joinSep (ys ++ [e]) ≠ [] := by
  rw [joinSep_concat]
  split
  · exact he
  · simp

/-- The result of `filepath.Clean` from the elements kept. -/
theorem cleanChars_eq (path : List Char) :
    filepath.cleanChars path =
      if path.head? = some '/' then '/' :: filepath.joinSep (cleanOut true path).reverse
      else if filepath.joinSep (cleanOut false path).reverse = [] then ['.']
      else filepath.joinSep (cleanOut false path).reverse := by
  unfold filepath.cleanChars cleanOut
  by_cases h : path.head? = some '/'
  · simp [h]
  · simp [h]

/-- A name at the end of a path is kept, after the elements kept before it. -/
theorem cleanOut_append_name (rooted : Bool) (a e : List Char) (he : IsName e) :
    cleanOut rooted (a ++ '/' :: e) = e :: cleanOut rooted a := by
  unfold cleanOut
  rw [splitSep_append, splitSep_of_no_sep e he.2.2.2, List.foldl_append]
  exact cleanStep_name _ _ e he

/-- A name alone is kept. -/
theorem cleanOut_name (rooted : Bool) (e : List Char) (he : IsName e) :
    cleanOut rooted e = [e] := by
  unfold cleanOut
  rw [splitSep_of_no_sep e he.2.2.2]
  exact cleanStep_name _ _ e he

/-- A name does not begin with a separator. -/
theorem IsName.head (e : List Char) (he : IsName e) : ¬ (e.head? = some '/') := by
  intro h
  apply he.2.2.2
  cases e with
  | nil => simp at h
  | cons c cs =>
    simp only [List.head?_cons, Option.some.injEq] at h
    simp [h]

/-- Cleaning a text that ends with a name gives a text that ends with this
name, alone or after a separator. -/
theorem cleanChars_ends_with_name (a e : List Char) (he : IsName e) :
    ∃ X, filepath.cleanChars (a ++ '/' :: e) = X ++ e ∧
      (X = [] ∨ ∃ X', X = X' ++ ['/']) := by
  have hne : ∀ r, filepath.joinSep ((cleanOut r a).reverse ++ [e]) ≠ [] :=
    fun r => joinSep_concat_ne_nil _ e he.1
  rw [cleanChars_eq, cleanOut_append_name _ a e he, cleanOut_append_name _ a e he]
  simp only [List.reverse_cons]
  by_cases hr : (a ++ '/' :: e).head? = some '/'
  · rw [if_pos hr, joinSep_concat]
    split
    · exact ⟨['/'], rfl, Or.inr ⟨[], rfl⟩⟩
    · exact ⟨'/' :: (filepath.joinSep (cleanOut true a).reverse ++ ['/']), by simp,
        Or.inr ⟨'/' :: filepath.joinSep (cleanOut true a).reverse, by simp⟩⟩
  · rw [if_neg hr, if_neg (hne false), joinSep_concat]
    split
    · exact ⟨[], rfl, Or.inl rfl⟩
    · exact ⟨filepath.joinSep (cleanOut false a).reverse ++ ['/'], by simp,
        Or.inr ⟨_, rfl⟩⟩

/-- Cleaning a name gives the name. -/
theorem cleanChars_name (e : List Char) (he : IsName e) : filepath.cleanChars e = e := by
  rw [cleanChars_eq, if_neg (IsName.head e he), cleanOut_name false e he]
  simp only [List.reverse_cons, List.reverse_nil, List.nil_append, filepath.joinSep]
  rw [if_neg he.1]

/-- Cleaning a clean directory path other than `/` and `.`, followed by a
separator and a name, changes nothing. -/
theorem cleanChars_clean_append_name (d e : List Char) (hd : filepath.cleanChars d = d)
    (hroot : d ≠ ['/']) (hdot : d ≠ ['.']) (he : IsName e) :
    filepath.cleanChars (d ++ '/' :: e) = d ++ '/' :: e := by
  have hne : ∀ r, filepath.joinSep ((cleanOut r d).reverse ++ [e]) ≠ [] :=
    fun r => joinSep_concat_ne_nil _ e he.1
  have hdne : d ≠ [] := by
    intro h
    rw [h] at hd
    simp [filepath.cleanChars, filepath.splitSep, filepath.cleanStep, filepath.joinSep] at hd
  have hhead : (d ++ '/' :: e).head? = d.head? := by
    cases d with
    | nil => exact absurd rfl hdne
    | cons c cs => rfl
  rw [cleanChars_eq] at hd
  rw [cleanChars_eq, cleanOut_append_name _ d e he, cleanOut_append_name _ d e he, hhead]
  simp only [List.reverse_cons]
  by_cases hr : d.head? = some '/'
  · rw [if_pos hr] at hd ⊢
    rw [joinSep_concat]
    split
    · rename_i hout
      exfalso
      apply hroot
      rw [← hd, hout]
      rfl
    · rw [← List.cons_append, hd]
  · rw [if_neg hr] at hd ⊢
    rw [if_neg (hne false), joinSep_concat]
    split
    · rename_i hout
      exfalso
      apply hdot
      rw [← hd, hout]
      rfl
    · split at hd
      · exact absurd hd.symm hdot
      · rw [hd]

/-- The characters of a candidate path: the cleaned filename when the base
path is empty, the cleaned join of base path and filename otherwise. -/
theorem candidatePath_data {ι : Type} (dir : Dir ι) (name : String) :
    (candidatePath dir name).data =
      if dir.Path = "" then
        filepath.cleanChars (name.data ++ '.' :: dir.Config.Extension.data)
      else
        filepath.cleanChars
          (dir.Path.data ++ '/' :: (name.data ++ '.' :: dir.Config.Extension.data)) := by
  have hdata : (name ++ "." ++ dir.Config.Extension).data =
      name.data ++ '.' :: dir.Config.Extension.data := by
    simp [String.data_append]
  have hne : name ++ "." ++ dir.Config.Extension ≠ "" := by
    intro h
    have := congrArg String.data h
    rw [hdata] at this
    simp at this
  unfold candidatePath
  by_cases hd : dir.Path = ""
  · rw [if_pos hd, hd]
    simp only [filepath.Join, if_true, if_neg hne, filepath.Clean, List.map_cons,
      List.map_nil, filepath.joinSep, hdata]
  · rw [if_neg hd]
    simp only [filepath.Join, if_neg hd, filepath.Clean, List.map_cons,
      List.map_nil, filepath.joinSep, hdata]

/-- Cleaning never gives the empty text. -/
theorem cleanChars_ne_nil (path : List Char) : filepath.cleanChars path ≠ [] := by
  rw [cleanChars_eq]
  split
  · simp
  · split
    · simp
    · assumption

/-- A candidate path is never empty. -/
theorem candidatePath_ne_empty {ι : Type} (dir : Dir ι) (name : String) :
    candidatePath dir name ≠ "" := by
  intro h
  have := congrArg String.data h
  rw [candidatePath_data] at this
  split at this
  · exact cleanChars_ne_nil _ this
  · exact cleanChars_ne_nil _ this

/-- The last element of a text holds no separator. -/
theorem lastElement_no_sep (l : List Char) : '/' ∉ lastElement l := by
  unfold lastElement
  intro h
  rw [List.mem_reverse] at h
  have := List.mem_takeWhile_imp h
  simp at this

/-- A text is its last element, alone or after a separator. -/
theorem lastElement_split (l : List Char) :
    l = lastElement l ∨ ∃ a, l = a ++ '/' :: lastElement l := by
  unfold lastElement
  have h := List.takeWhile_append_dropWhile (fun c => decide (c ≠ '/')) l.reverse
  cases hdrop : l.reverse.dropWhile (fun c => decide (c ≠ '/')) with
  | nil =>
    left
    rw [hdrop, List.append_nil] at h
    rw [h, List.reverse_reverse]
  | cons c cs =>
    right
    have hc : c = '/' := by
      have := List.head_dropWhile_not (fun c => decide (c ≠ '/')) l.reverse
        (by rw [hdrop]; simp)
      simp only [hdrop, List.head_cons] at this
      simpa using this
    subst hc
    refine ⟨cs.reverse, ?_⟩
    rw [hdrop] at h
    have h2 := congrArg List.reverse h
    rw [List.reverse_reverse, List.reverse_append, List.reverse_cons,
      List.append_assoc] at h2
    exact h2.symm

/-- Taking while a test holds stops where it first fails. -/
theorem takeWhile_append_stop (p : Char → Bool) (l r : List Char)
    (hl : ∀ c ∈ l, p c = true) (hr : r = [] ∨ ∃ x r', r = x :: r' ∧ p x = false) :
    (l ++ r).takeWhile p = l := by
  induction l with
  | nil =>
    rcases hr with rfl | ⟨x, r', rfl, hx⟩
    · rfl
    · simp [List.takeWhile, hx]
  | cons c cs ih =>
    have hc : p c = true := hl c (by simp)
    rw [List.cons_append, List.takeWhile_cons, hc, if_pos rfl,
      ih (fun c hc' => hl c (List.mem_cons_of_mem _ hc'))]

/-- The base name of a text that ends with a name, alone or after a
separator, is this name. -/
theorem baseChars_ends_with_name (X e : List Char) (hne : e ≠ []) (hsep : '/' ∉ e)
    (hX : X = [] ∨ ∃ X', X = X' ++ ['/']) : filepath.baseChars (X ++ e) = e := by
  unfold filepath.baseChars
  rw [List.reverse_append]
  have hdrop : (e.reverse ++ X.reverse).dropWhile (fun c => decide (c = '/')) =
      e.reverse ++ X.reverse := by
    cases he : e.reverse with
    | nil => exact absurd (by simpa using he) hne
    | cons c cs =>
      have hc : c ≠ '/' := by
        intro h
        apply hsep
        rw [← List.mem_reverse, he, h]
        simp
      simp [List.dropWhile, hc]
  rw [hdrop, takeWhile_append_stop _ e.reverse X.reverse, List.reverse_reverse]
  · intro c hc
    rw [List.mem_reverse] at hc
    have : c ≠ '/' := fun h => hsep (h ▸ hc)
    simpa using this
  · rcases hX with rfl | ⟨X', rfl⟩
    · exact Or.inl rfl
    · exact Or.inr ⟨'/', X'.reverse, by simp, by simp⟩

/-- The base name of a path whose characters end with a name, alone or after a
separator, is this name. -/
theorem Base_ends_with_name (path : String) (X e : List Char) (hpath : path.data = X ++ e)
    (hne : e ≠ []) (hsep : '/' ∉ e) (hX : X = [] ∨ ∃ X', X = X' ++ ['/']) :
    filepath.Base path = String.mk e := by
  have hp : path ≠ "" := by
    intro h
    have := congrArg String.data h
    rw [hpath] at this
    simp only [List.append_eq_nil] at this
    exact hne this.2
  unfold filepath.Base
  rw [if_neg hp]
  simp only [hpath, baseChars_ends_with_name X e hne hsep hX]
  rw [if_neg hne]

/-- The scan of `filepath.Ext` stops at the last dot. -/
theorem extScan_last_dot (x : List Char) :
    ∀ (rest acc : List Char), '.' ∉ x → '/' ∉ x →
      filepath.extScan (x.reverse ++ '.' :: rest) acc = '.' :: (x ++ acc) := by
  induction x using List.reverseRecOn with
  | nil =>
    intro rest acc _ _
    simp [filepath.extScan]
  | append_singleton x c ih =>
    intro rest acc hd hs
    have hc1 : c ≠ '/' := fun h => hs (by simp [h])
    have hc2 : c ≠ '.' := fun h => hd (by simp [h])
    have hd' : '.' ∉ x := fun h => hd (List.mem_append_left _ h)
    have hs' : '/' ∉ x := fun h => hs (List.mem_append_left _ h)
    simp only [List.reverse_append, List.reverse_cons, List.reverse_nil, List.nil_append,
      List.singleton_append, List.cons_append]
    rw [filepath.extScan, if_neg hc1, if_neg hc2, ih rest (c :: acc) hd' hs']
    simp

/-- The stem of a path whose base name is a text, a dot, and an extension
without dot and separator, is this text. -/
theorem FilenameStem_of_base (path : String) (n x : List Char)
    (hbase : filepath.Base path = String.mk (n ++ '.' :: x))
    (hd : '.' ∉ x) (hs : '/' ∉ x) : paths.FilenameStem path = String.mk n := by
  unfold paths.FilenameStem filepath.Ext
  simp only [hbase, List.reverse_append, List.reverse_cons, List.append_assoc,
    List.singleton_append]
  rw [extScan_last_dot x n.reverse [] hd hs]
  simp

/-- A rendered filename followed by a dot and an extension that is not empty
and holds neither dot nor separator ends with a name: the last element of the
rendered filename, the dot and the extension. -/
theorem IsName_lastElement_ext (n x : List Char) (hx : x ≠ []) (hd : '.' ∉ x)
    (hs : '/' ∉ x) : IsName (lastElement n ++ '.' :: x) := by
  have hmem : ∀ c ∈ x, c ∈ lastElement n ++ '.' :: x := fun c hc =>
    List.mem_append_right _ (List.mem_cons_of_mem _ hc)
  obtain ⟨c, hc⟩ := List.exists_mem_of_ne_nil x hx
  have hcd : c ≠ '.' := fun h => hd (h ▸ hc)
  refine ⟨by simp, ?_, ?_, ?_⟩
  · intro h
    have := hmem c hc
    rw [h] at this
    simp at this
    exact hcd this
  · intro h
    have := hmem c hc
    rw [h] at this
    simp at this
    exact hcd this
  · intro h
    rcases List.mem_append.1 h with h | h
    · exact lastElement_no_sep n h
    · simp only [List.mem_cons] at h
      rcases h with h | h
      · exact absurd h (by decide)
      · exact hs h

/-- With an extension that is not empty and holds neither dot nor separator,
the base name of a candidate path is the last element of the rendered
filename, a dot and the extension, and its stem is that last element. -/
theorem candidatePath_base_stem {ι : Type} (dir : Dir ι) (name : String)
    (hx : dir.Config.Extension.data ≠ []) (hd : '.' ∉ dir.Config.Extension.data)
    (hs : '/' ∉ dir.Config.Extension.data) :
    filepath.Base (candidatePath dir name) =
      String.mk (lastElement name.data ++ '.' :: dir.Config.Extension.data) ∧
    paths.FilenameStem (candidatePath dir name) = String.mk (lastElement name.data) := by
  have he := IsName_lastElement_ext name.data dir.Config.Extension.data hx hd hs
  have hends : ∃ X, (candidatePath dir name).data =
      X ++ (lastElement name.data ++ '.' :: dir.Config.Extension.data) ∧
      (X = [] ∨ ∃ X', X = X' ++ ['/']) := by
    rw [candidatePath_data]
    rcases lastElement_split name.data with hn | ⟨a, hn⟩
    · split
      · rw [← hn] at he ⊢
        exact ⟨[], by rw [cleanChars_name _ he]; rfl, Or.inl rfl⟩
      · rw [← hn] at he ⊢
        exact cleanChars_ends_with_name _ _ he
    · have e1 : name.data ++ '.' :: dir.Config.Extension.data =
          a ++ '/' :: (lastElement name.data ++ '.' :: dir.Config.Extension.data) := by
        conv_lhs => rw [hn]
        simp
      split
      · rw [e1]
        exact cleanChars_ends_with_name _ _ he
      · have e2 : dir.Path.data ++ '/' :: (name.data ++ '.' :: dir.Config.Extension.data) =
            (dir.Path.data ++ '/' :: a) ++
              '/' :: (lastElement name.data ++ '.' :: dir.Config.Extension.data) := by
          rw [e1]
          simp
        rw [e2]
        exact cleanChars_ends_with_name _ _ he
  obtain ⟨X, hdata, hX⟩ := hends
  have hbase := Base_ends_with_name (candidatePath dir name) X _ hdata he.1 he.2.2.2 hX
  exact ⟨hbase, FilenameStem_of_base _ _ _ hbase hd hs⟩

/-- When the loop succeeds, the path returned is the candidate path of a
rendered filename. -/
theorem genPathLoop_success_path {σ ι : Type} (dir : Dir ι) (deps : createDeps σ) :
    ∀ n path c s, (genPathLoop dir deps n path c s).1.err = none →
      ∃ name, (genPathLoop dir deps n path c s).1.path = candidatePath dir name := by
  refine genPathLoop_rule dir deps
    (fun _ _ _ _ r => r.1.err = none → ∃ name, r.1.path = candidatePath dir name)
    ?_ ?_ ?_ ?_ ?_
  · intro path c s h
    simp at h
  · intro n path c s id w1 err w2 _ _ h
    simp at h
  · intro n path c s id w1 name w2 valid err w3 _ _ _ h
    simp at h
  · intro n path c s id w1 name w2 w3 _ _ _ _
    exact ⟨name, rfl⟩
  · intro n path c s id w1 name w2 w3 r _ _ _ ih
    exact ih

/-! ## C13: a note or an error -/

/-- The path of a note returned by `create` is the path returned by the
resolver and is not empty. -/
theorem create_note_path {σ ι : Type} (opts : CreateOpts ι) (deps : createDeps σ)
    (s : Sys σ) (note : createdNote) (h : (create opts deps s).1.1 = some note) :
    note.path = (genPath (initialContext opts) opts.Dir deps s).1.path ∧
    note.path ≠ "" := by
  rcases create_cases opts deps s with ⟨err, -, e⟩ | ⟨-, err, w', -, e⟩ |
    ⟨hnone, content, w', -, e⟩
  · rw [e] at h
    simp at h
  · rw [e] at h
    simp at h
  · rw [e] at h
    simp only [Option.some.injEq] at h
    subst h
    refine ⟨rfl, ?_⟩
    obtain ⟨name, hname⟩ :=
      genPathLoop_success_path opts.Dir deps 50 "" (initialContext opts) s hnone
    have hname' : (genPath (initialContext opts) opts.Dir deps s).1.path =
        candidatePath opts.Dir name := hname
    simp only [hname']
    exact candidatePath_ne_empty _ _

/-- C13. `create` returns exactly one of a note and an error: a note if and
only if the error is nil, the path of the note being the path returned by the
resolver and its content the string the body template rendered. `Create`
always returns (the note it dereferences is never nil), and the path it
returns is empty if and only if it returns an error: a successful path is
never empty. -/
theorem create_note_or_error {σ ι : Type} (env : Env σ ι) (opts : CreateOpts ι)
    (deps : createDeps σ) (templateLoader : Loader σ) (w : σ) :
    ((create opts deps (Sys.start w)).1.1 ≠ none ↔
      (create opts deps (Sys.start w)).1.2 = none) ∧
    (∀ note, (create opts deps (Sys.start w)).1.1 = some note →
      note.path = (genPath (initialContext opts) opts.Dir deps (Sys.start w)).1.path ∧
      ∃ context, bodyRenders (create opts deps (Sys.start w)).2.log =
        [(context, Except.ok note.content)]) ∧
    (∃ path err, (Create env opts templateLoader (Sys.start w)).1 = some (path, err) ∧
      (path = "" ↔ err ≠ none)) := by
  refine ⟨?_, ?_, ?_⟩
  · rcases create_cases opts deps (Sys.start w) with ⟨err, -, e⟩ | ⟨-, err, w', -, e⟩ |
      ⟨-, content, w', -, e⟩
    · rw [e]
      simp
    · rw [e]
      simp
    · rw [e]
      simp
  · intro note hnote
    refine ⟨(create_note_path opts deps (Sys.start w) note hnote).1, ?_⟩
    obtain ⟨new, hlog, -, hsome, -⟩ := create_outcome opts deps (Sys.start w)
    obtain ⟨-, -, -, -, id, -, hbody⟩ := hsome note hnote
    have hlog' : (create opts deps (Sys.start w)).2.log = new := by
      rw [hlog]
      rfl
    rw [hlog']
    exact ⟨_, hbody⟩
  · rcases Create_cases env opts templateLoader (Sys.start w) with
      ⟨err, w1, -, e⟩ | ⟨ft, w1, err, w2, -, -, -, e⟩ | ⟨ft, w1, bt, s2, -, -, hrest⟩
    · exact ⟨"", some err, by rw [e], by simp⟩
    · exact ⟨"", some (Error.wrapf "new note" err), by rw [e], by simp⟩
    · obtain ⟨new, -, -, -, hnone⟩ := create_outcome opts (depsOf env opts ft bt) s2
      rcases hrest with ⟨err, -, e⟩ | ⟨hnn, -⟩ | ⟨note, err, w3, -, -, e⟩ |
        ⟨note, w3, hc, -, e⟩
      · exact ⟨"", some (Error.wrapf "new note" err), by rw [e], by simp⟩
      · obtain ⟨err, herr⟩ := hnone (by rw [hnn])
        rw [hnn] at herr
        simp at herr
      · exact ⟨"", some (Error.wrapf "new note" err), by rw [e], by simp⟩
      · have hpath := (create_note_path opts (depsOf env opts ft bt) s2 note
          (by rw [hc])).2
        exact ⟨note.path, none, by rw [e], by simp [hpath]⟩

/-! ## C14: filename, stem and extension -/

/-- C14, as amended. After every successful resolution, `Filename` is the base
name of the returned path and `FilenameStem` is the stem of that path; for
every configured extension that is not empty and holds neither `.` nor a path
separator, `Filename` is `FilenameStem` followed by `.` and the extension. -/
theorem genPath_filename_is_stem_dot_extension {σ ι : Type} (dir : Dir ι)
    (deps : createDeps σ) (context : renderContext) (w : σ)
    (hok : (genPath context dir deps (Sys.start w)).1.err = none) :
    (genPath context dir deps (Sys.start w)).1.context.Filename =
      filepath.Base (genPath context dir deps (Sys.start w)).1.path ∧
    (genPath context dir deps (Sys.start w)).1.context.FilenameStem =
      paths.FilenameStem (genPath context dir deps (Sys.start w)).1.path ∧
    (dir.Config.Extension ≠ "" → '.' ∉ dir.Config.Extension.data →
      '/' ∉ dir.Config.Extension.data →
      (genPath context dir deps (Sys.start w)).1.context.Filename =
        (genPath context dir deps (Sys.start w)).1.context.FilenameStem ++ "." ++
          dir.Config.Extension) := by
  obtain ⟨new, -, hout, -⟩ := genPathLoop_outcome dir deps 50 "" context (Sys.start w)
  obtain ⟨-, -, -, id, -, hctx⟩ := hout hok
  have hctx' : (genPath context dir deps (Sys.start w)).1.context =
      { context with
        ID := id
        Filename := filepath.Base (genPath context dir deps (Sys.start w)).1.path
        FilenameStem :=
          paths.FilenameStem (genPath context dir deps (Sys.start w)).1.path } := hctx
  have hF : (genPath context dir deps (Sys.start w)).1.context.Filename =
      filepath.Base (genPath context dir deps (Sys.start w)).1.path := by
    rw [hctx']
  have hS : (genPath context dir deps (Sys.start w)).1.context.FilenameStem =
      paths.FilenameStem (genPath context dir deps (Sys.start w)).1.path := by
    rw [hctx']
  refine ⟨hF, hS, ?_⟩
  intro hne hd hs
  obtain ⟨name, hname⟩ := genPathLoop_success_path dir deps 50 "" context (Sys.start w) hok
  have hname' : (genPath context dir deps (Sys.start w)).1.path =
      candidatePath dir name := hname
  have hx : dir.Config.Extension.data ≠ [] := by
    intro h
    apply hne
    exact String.ext h
  obtain ⟨hbase, hstem⟩ := candidatePath_base_stem dir name hx hd hs
  rw [hF, hS, hname', hbase, hstem]
  apply String.ext
  simp [String.data_append]

/-- C14 on the scenario: `Filename` is the stem followed by `.md`. -/
theorem genPath_filename_is_stem_dot_extension_witness :
    (genPath Scenario.context Scenario.dir Scenario.deps
      (Sys.start (Scenario.world [] 0))).1.context.Filename =
    (genPath Scenario.context Scenario.dir Scenario.deps
      (Sys.start (Scenario.world [] 0))).1.context.FilenameStem ++ "." ++ "md" :=
  (genPath_filename_is_stem_dot_extension Scenario.dir Scenario.deps Scenario.context
    (Scenario.world [] 0) (by decide)).2.2 (by decide) (by decide) (by decide)

/-- C14 as stated fails with the extension `tar.gz`: the resolution succeeds,
`Filename` is `20230101-abcd.tar.gz`, `FilenameStem` is `20230101-abcd.tar`,
and the stem followed by `.` and the extension is not the filename. -/
theorem genPath_extension_with_dot :
    Scenario.dirTarGz.Config.Extension ≠ "" ∧
    (genPath Scenario.context Scenario.dirTarGz Scenario.deps
      (Sys.start (Scenario.world [] 0))).1.err = none ∧
    (genPath Scenario.context Scenario.dirTarGz Scenario.deps
      (Sys.start (Scenario.world [] 0))).1.context.Filename = "20230101-abcd.tar.gz" ∧
    (genPath Scenario.context Scenario.dirTarGz Scenario.deps
      (Sys.start (Scenario.world [] 0))).1.context.FilenameStem = "20230101-abcd.tar" ∧
    (genPath Scenario.context Scenario.dirTarGz Scenario.deps
      (Sys.start (Scenario.world [] 0))).1.context.Filename ≠
    (genPath Scenario.context Scenario.dirTarGz Scenario.deps
      (Sys.start (Scenario.world [] 0))).1.context.FilenameStem ++ "." ++
        Scenario.dirTarGz.Config.Extension := by
  decide

/-- C13 on the scenario: a note is returned without error, and `Create`
returns its path, which is not empty. -/
theorem create_note_or_error_witness :
    (∃ context, bodyRenders (create Scenario.opts Scenario.deps
        (Sys.start (Scenario.world [] 0))).2.log =
      [(context, Except.ok "# My Note (20230101-abcd)")]) ∧
    (∃ path err, (Create Scenario.env Scenario.opts Scenario.loader
        (Sys.start (Scenario.world [] 0))).1 = some (path, err) ∧
      (path = "" ↔ err ≠ none)) :=
  have h := create_note_or_error Scenario.env Scenario.opts Scenario.deps Scenario.loader
    (Scenario.world [] 0)
  ⟨(h.2.1 ⟨"/notes/20230101-abcd.md", "# My Note (20230101-abcd)"⟩ (by decide)).2, h.2.2⟩

/-! ## C15: the scenario of the specification -/

/-- The candidate path for a clean base path other than `/` and `.`, an
extension that is not empty and holds neither dot nor separator, and a
rendered filename without separator: base path, separator, rendered filename,
dot, extension; its base name and its stem. -/
theorem candidatePath_clean {ι : Type} (dir : Dir ι) (name : String)
    (hclean : filepath.Clean dir.Path = dir.Path) (hroot : dir.Path ≠ "/")
    (hcur : dir.Path ≠ ".")
    (hx : dir.Config.Extension ≠ "") (hd : '.' ∉ dir.Config.Extension.data)
    (hs : '/' ∉ dir.Config.Extension.data) (hname : '/' ∉ name.data) :
    candidatePath dir name = dir.Path ++ "/" ++ name ++ "." ++ dir.Config.Extension ∧
    filepath.Base (candidatePath dir name) = name ++ "." ++ dir.Config.Extension ∧
    paths.FilenameStem (candidatePath dir name) = name := by
  have hx' : dir.Config.Extension.data ≠ [] := fun h => hx (String.ext h)
  have hlast : lastElement name.data = name.data := by
    unfold lastElement
    rw [List.takeWhile_eq_self_iff.2, List.reverse_reverse]
    intro c hc
    rw [List.mem_reverse] at hc
    have : c ≠ '/' := fun h => hname (h ▸ hc)
    simpa using this
  have he := IsName_lastElement_ext name.data dir.Config.Extension.data hx' hd hs
  rw [hlast] at he
  have hcl : filepath.cleanChars dir.Path.data = dir.Path.data := by
    have := congrArg String.data hclean
    exact this
  have hpne : dir.Path ≠ "" := by
    intro h
    rw [h] at hclean
    revert hclean
    decide
  have hr : dir.Path.data ≠ ['/'] := fun h => hroot (String.ext h)
  have hc : dir.Path.data ≠ ['.'] := fun h => hcur (String.ext h)
  have hdata : (candidatePath dir name).data =
      dir.Path.data ++ '/' :: (name.data ++ '.' :: dir.Config.Extension.data) := by
    rw [candidatePath_data, if_neg hpne]
    exact cleanChars_clean_append_name _ _ hcl hr hc he
  obtain ⟨hbase, hstem⟩ := candidatePath_base_stem dir name hx' hd hs
  rw [hlast] at hbase hstem
  refine ⟨?_, ?_, ?_⟩
  · apply String.ext
    rw [hdata]
    simp [String.data_append]
  · rw [hbase]
    apply String.ext
    simp [String.data_append]
  · rw [hstem]

/-- C15, as amended. For a clean base directory path other than `/` and `.`,
an extension that is not empty and holds neither `.` nor a path separator, and
a rendered filename without path separator, when the first candidate is
free: `genPath` returns the base path, `/`, the rendered filename, `.` and the
extension; `Filename` is the rendered filename, `.` and the extension, and
`FilenameStem` is the rendered filename; `create` renders the body template
once, with the supplied title, which is not empty, and that stem. -/
theorem create_first_candidate_free {σ ι : Type} (opts : CreateOpts ι)
    (deps : createDeps σ) (ids names : Nat → String) (w : Nat → σ) (title : String)
    (hclean : filepath.Clean opts.Dir.Path = opts.Dir.Path)
    (hroot : opts.Dir.Path ≠ "/") (hcur : opts.Dir.Path ≠ ".")
    (hx : opts.Dir.Config.Extension ≠ "") (hd : '.' ∉ opts.Dir.Config.Extension.data)
    (hs : '/' ∉ opts.Dir.Config.Extension.data) (hname : '/' ∉ (names 0).data)
    (htitle : opts.Title = some title) (htne : title ≠ "")
    (hfree : Attempt opts.Dir deps (initialContext opts) ids names w 0 true none) :
    (genPath (initialContext opts) opts.Dir deps (Sys.start (w 0))).1.err = none ∧
    (genPath (initialContext opts) opts.Dir deps (Sys.start (w 0))).1.path =
      opts.Dir.Path ++ "/" ++ names 0 ++ "." ++ opts.Dir.Config.Extension ∧
    (genPath (initialContext opts) opts.Dir deps (Sys.start (w 0))).1.context.Filename =
      names 0 ++ "." ++ opts.Dir.Config.Extension ∧
    (genPath (initialContext opts) opts.Dir deps (Sys.start (w 0))).1.context.FilenameStem =
      names 0 ∧
    (∃ result,
      bodyRenders (create opts deps (Sys.start (w 0))).2.log =
        [({ initialContext opts with
            ID := ids 0
            Filename := names 0 ++ "." ++ opts.Dir.Config.Extension
            FilenameStem := names 0 }, result)]) ∧
    (initialContext opts).Title = title := by
  obtain ⟨hpath, hbase, hstem⟩ :=
    candidatePath_clean opts.Dir (names 0) hclean hroot hcur hx hd hs hname
  have hrun : genPath (initialContext opts) opts.Dir deps (Sys.start (w 0)) =
      (⟨candidatePath opts.Dir (names 0),
        { initialContext opts with
          ID := ids 0
          Filename := filepath.Base (candidatePath opts.Dir (names 0))
          FilenameStem := paths.FilenameStem (candidatePath opts.Dir (names 0)) },
        none⟩,
       ⟨w (0 + 1), [] ++ attemptCalls opts.Dir (initialContext opts) ids names 0 true none⟩) :=
    genPathLoop_free opts.Dir deps (initialContext opts) ids names w 0 49 ""
      (initialContext opts).ID [] hfree
  rw [hbase, hstem] at hrun
  have htitle' : (initialContext opts).Title = title := by
    simp [initialContext, opt.OrDefault, htitle, htne]
  refine ⟨by rw [hrun], by rw [hrun]; exact hpath, by rw [hrun], by rw [hrun], ?_, htitle'⟩
  rcases create_cases opts deps (Sys.start (w 0)) with ⟨err, herr, -⟩ |
    ⟨-, err, w', -, e⟩ | ⟨-, content, w', -, e⟩
  · rw [hrun] at herr
    simp at herr
  · refine ⟨Except.error err, ?_⟩
    rw [e, hrun]
    simp [attemptCalls, bodyRenders]
  · refine ⟨Except.ok content, ?_⟩
    rw [e, hrun]
    simp [attemptCalls, bodyRenders]

/-- C15 on the scenario of the specification: base path `/notes`, extension
`md`, rendered filename `20230101-abcd`, title `My Note`. -/
theorem create_first_candidate_free_witness :
    (genPath (initialContext Scenario.opts) Scenario.opts.Dir Scenario.deps
      (Sys.start (Scenario.world [] 0))).1.path = "/notes/20230101-abcd.md" ∧
    (genPath (initialContext Scenario.opts) Scenario.opts.Dir Scenario.deps
      (Sys.start (Scenario.world [] 0))).1.context.Filename = "20230101-abcd.md" ∧
    (genPath (initialContext Scenario.opts) Scenario.opts.Dir Scenario.deps
      (Sys.start (Scenario.world [] 0))).1.context.FilenameStem = "20230101-abcd" ∧
    (∃ result,
      bodyRenders (create Scenario.opts Scenario.deps
          (Sys.start (Scenario.world [] 0))).2.log =
        [({ initialContext Scenario.opts with
            ID := "abcd"
            Filename := "20230101-abcd" ++ "." ++ "md"
            FilenameStem := "20230101-abcd" }, result)]) ∧
    (initialContext Scenario.opts).Title = "My Note" :=
  have h := create_first_candidate_free Scenario.opts Scenario.deps Scenario.ids
    Scenario.names (Scenario.world []) "My Note" (by decide) (by decide) (by decide)
    (by decide) (by decide) (by decide) (by decide) rfl (by decide)
    ⟨_, _, rfl, rfl, by decide⟩
  ⟨h.2.1.trans (by decide), h.2.2.1.trans (by decide), h.2.2.2.1, h.2.2.2.2.1,
    h.2.2.2.2.2⟩

/-- C15 as stated fails for the clean base paths `/` and `.`: with the root as
base path the path returned is `/20230101-abcd.md`, not the base path followed
by `/` and the filename; with the current directory it is `20230101-abcd.md`.
And with the empty string supplied as title, the body template is rendered
with the title `Untitled` of the directory. -/
theorem genPath_root_base_path :
    filepath.Clean Scenario.rootDir.Path = Scenario.rootDir.Path ∧
    (genPath Scenario.context Scenario.rootDir Scenario.deps
      (Sys.start (Scenario.world [] 0))).1.err = none ∧
    (genPath Scenario.context Scenario.rootDir Scenario.deps
      (Sys.start (Scenario.world [] 0))).1.path = "/20230101-abcd.md" ∧
    (genPath Scenario.context Scenario.rootDir Scenario.deps
      (Sys.start (Scenario.world [] 0))).1.path ≠
      Scenario.rootDir.Path ++ "/" ++ "20230101-abcd" ++ "." ++ "md" ∧
    filepath.Clean Scenario.currentDir.Path = Scenario.currentDir.Path ∧
    (genPath Scenario.context Scenario.currentDir Scenario.deps
      (Sys.start (Scenario.world [] 0))).1.path = "20230101-abcd.md" ∧
    (genPath Scenario.context Scenario.currentDir Scenario.deps
      (Sys.start (Scenario.world [] 0))).1.path ≠
      Scenario.currentDir.Path ++ "/" ++ "20230101-abcd" ++ "." ++ "md" ∧
    (bodyRenders (create { Scenario.opts with Title := some "" } Scenario.deps
      (Sys.start (Scenario.world [] 0))).2.log).map (fun b => b.1.Title) =
      ["Untitled"] := by
  decide

end Note
